import Mathlib

/-!
# TrickleJS stream engine — shallow embedding

A shallow embedding of the `tricklejs` stream library (src/stream.ts,
src/stream_subscription.ts, src/stream_controller.ts, src/stream_utils.ts,
src/types.ts).  Values and error payloads are modelled as `Nat`.  The host
environment's `nextTick` deferred-dispatch primitive is modelled as an explicit
FIFO task queue inside a `World`; JavaScript exceptions are modelled with
`Except Thrown`.  Callbacks (listeners, derived-stream wiring, aggregator
handlers) are defunctionalized into the inductive types `DataCb`, `ErrCb`,
`DoneCb`; externally observable behaviour is recorded in an event log.
-/

namespace TrickleJS

/-- `StreamMessage` (types.ts): Data(T) | Error(E) | Done. -/
inductive Msg where
  | data (v : Nat)
  | error (e : Nat)
  | done
deriving DecidableEq, Repr

/-- Result of a user predicate / condition call: returns a boolean or throws. -/
inductive PredR where
  | ret (b : Bool)
  | thrown (e : Nat)
deriving DecidableEq, Repr

/-- JavaScript exceptions thrown by the library or by user callbacks.
`closedAdd` = "cannot add to closed stream", `closedAddError` = "cannot add
error to closed stream", `alreadyListening` = "cannot have more than one
listener on the stream", `user e` = a value thrown by a user callback,
`missing` = internal lookup failure (never reached in well-formed runs). -/
inductive Thrown where
  | closedAdd
  | closedAddError
  | alreadyListening
  | user (v : Nat)
  | missing
deriving DecidableEq, Repr

/-- The four stream event-hook names (`_callEventListeners`). -/
inductive HookName where
  | onListen
  | onPause
  | onResume
  | onCancel
deriving DecidableEq, Repr

/-- How a promise returned by a terminal aggregator settles.  `resUndef` is a
resolution carrying no value (`resolve()` / `resolve(undefined)`); `rejNull`
is `reject(null)`. -/
inductive SettleR where
  | resBool (b : Bool)
  | resNat (n : Nat)
  | resList (l : List Nat)
  | resUndef
  | rejBool (b : Bool)
  | rejNat (n : Nat)
  | rejNull
  | rejEmptyError
deriving DecidableEq, Repr

/-- Observable events, recorded in order of occurrence.
`data lid v` / `err lid e` / `done lid`: an external observing listener `lid`
had its onData / onError / onDone callback invoked.  `hook sid h`: stream
`sid`'s registered event callbacks for hook `h` ran (deferred).
`settle pid r`: promise `pid` settled with `r`.  `cancelSub subId`: the owning
stream detached subscription `subId` (the synchronous part of `cancel`). -/
inductive Ev where
  | data (lid v : Nat)
  | err (lid e : Nat)
  | done (lid : Nat)
  | hook (sid : Nat) (h : HookName)
  | settle (pid : Nat) (r : SettleR)
  | cancelSub (subId : Nat)
deriving DecidableEq, Repr

/-- Defunctionalized onData callbacks.
`obs lid`: an external listener that records received values.
`addTo sid`: `this.add.bind(this)` wiring used by derived/broadcast `listen`.
`everyData pid cond` / `firstData pid` / `toArrayData pid`: the data handlers
of `Stream.every` / `Stream.first` / `Stream.toArray` for promise `pid`. -/
inductive DataCb where
  | obs (lid : Nat)
  | addTo (sid : Nat)
  | everyData (pid : Nat) (cond : Nat → PredR)
  | firstData (pid : Nat)
  | firstWhereData (pid : Nat) (cond : Nat → PredR)
  | forEachData (pid : Nat) (f : Nat → PredR)
  | reduceData (pid : Nat) (red : Nat → Nat → Except Nat Nat)
  | toArrayData (pid : Nat)
  | toSetData (pid : Nat)

/-- Defunctionalized onError callbacks.  `rejectWith pid` is the shared
aggregator handler `(e) => cancelAndFulfill(e, sub, reject)`. -/
inductive ErrCb where
  | obsErr (lid : Nat)
  | addErrorTo (sid : Nat)
  | rejectWith (pid : Nat)

/-- Defunctionalized onDone callbacks.  `closeOf sid` is `this.close.bind(this)`
wiring; the rest are the aggregators' Done handlers: `every` resolves `true`,
`first` rejects with an empty `Error`, `firstWhere` cancels and rejects `null`
(its onDone is `cancelAndFulfill(null, sub, reject)`), `forEach` resolves with
no value, `reduce` resolves the accumulated value, `toArray` / `toSet` resolve
the collected elements. -/
inductive DoneCb where
  | obsDone (lid : Nat)
  | closeOf (sid : Nat)
  | everyDone (pid : Nat)
  | firstDone (pid : Nat)
  | firstWhereDone (pid : Nat)
  | forEachDone (pid : Nat)
  | reduceDone (pid : Nat)
  | toArrayDone (pid : Nat)
  | toSetDone (pid : Nat)

/-- Stream variant tags (base class plus the `_broadcastStream` /
`_filteringStream` family of subclasses in stream.ts). -/
inductive Tag where
  | base
  | broadcast
  | filtering
  | takeT
  | takeWhileT
  | skipT
  | skipWhileT
  | whereT

/-- State of one `Stream` object (fields of `Stream` and its subclasses).
`subscription` is `_subscription`, `buffer` is `_buffer`, `parentSub` is
`_filteringStream._sub` / `_broadcastStream._parentSubscription`,
`taken`/`takeAmount` belong to `_takeStream`, `skipped`/`skipAmount` to
`_skipStream`, `isSkipping` to `_skipWhileStream`, `cond` is the predicate of
the takeWhile/skipWhile/where variants, `subscribers` is the broadcast
subscriber set (insertion-ordered). -/
structure StreamState where
  tag : Tag
  parent : Option Nat := none
  subscription : Option Nat := none
  buffer : List Msg := []
  isPausedF : Bool := false
  isClosed : Bool := false
  parentSub : Option Nat := none
  taken : Nat := 0
  takeAmount : Nat := 0
  skipped : Nat := 0
  skipAmount : Nat := 0
  isSkipping : Bool := true
  cond : Nat → PredR := fun _ => PredR.ret true
  subscribers : List Nat := []

/-- State of one `StreamSubscription` (stream_subscription.ts): owning stream,
the listener and optional callbacks fixed at creation, the inbound buffer and
the paused flag. -/
structure SubState where
  stream : Nat
  onData : DataCb
  onError : Option ErrCb := none
  onDone : Option DoneCb := none
  cancelOnError : Bool := false
  buffer : List Msg := []
  isPausedF : Bool := false

/-- State of a promise returned by a terminal aggregator.  `settled` is `none`
while pending (first settle wins, as for JS promises); `collected` is the
`result` array closed over by `toArray`. -/
structure PromiseState where
  settled : Option SettleR := none
  collected : List Nat := []

/-- A callback scheduled with `nextTick` (stream_utils.ts), defunctionalized:
`emitT sid` is the drain closure of `Stream._emit`; `hookT sid h` is the
deferred firing of event-hook callbacks (`_callEventListeners`); `fanT sid m`
is `_broadcastStream.add`/`addError`'s fan-out of a captured message;
`fanDoneT sid` is `_broadcastStream.close`'s Done fan-out. -/
inductive Task where
  | emitT (sid : Nat)
  | hookT (sid : Nat) (h : HookName)
  | fanT (sid : Nat) (m : Msg)
  | fanDoneT (sid : Nat)
deriving DecidableEq, Repr

/-- The whole mutable world: stream objects, subscription objects, aggregator
promises, the FIFO `nextTick` queue, and the observation log. -/
structure World where
  streams : List StreamState := []
  subs : List SubState := []
  promises : List PromiseState := []
  queue : List Task := []
  log : List Ev := []

def World.empty : World := {}

def getS (w : World) (sid : Nat) : Option StreamState := w.streams[sid]?

def setS (w : World) (sid : Nat) (s : StreamState) : World :=
  { w with streams := w.streams.set sid s }

def modS (w : World) (sid : Nat) (f : StreamState → StreamState) : World :=
  match w.streams[sid]? with
  | some s => setS w sid (f s)
  | none => w

def modSub (w : World) (subId : Nat) (f : SubState → SubState) : World :=
  match w.subs[subId]? with
  | some s => { w with subs := w.subs.set subId (f s) }
  | none => w

def modP (w : World) (pid : Nat) (f : PromiseState → PromiseState) : World :=
  match w.promises[pid]? with
  | some p => { w with promises := w.promises.set pid (f p) }
  | none => w

def logE (w : World) (e : Ev) : World := { w with log := w.log ++ [e] }

/-- `Stream._callEventListeners(name)`: schedules the hook callbacks on the
next tick. -/
def pushHook (w : World) (sid : Nat) (h : HookName) : World :=
  { w with queue := w.queue ++ [Task.hookT sid h] }

/-- `Stream.cancel(subscription)` / `_broadcastStream.cancel(subscription)`:
the base class detaches its (single) subscription reference — ignoring which
subscription was passed — and fires `onCancel`; the broadcast variant removes
only the given subscription from its subscriber set and fires `onCancel`. -/
def streamCancel (w : World) (sid : Nat) (subId : Nat) : World :=
  match getS w sid with
  | none => w
  | some s =>
    match s.tag with
    | Tag.broadcast =>
      let w := setS w sid { s with subscribers := s.subscribers.filter (· ≠ subId) }
      let w := logE w (Ev.cancelSub subId)
      pushHook w sid HookName.onCancel
    | _ =>
      let w := setS w sid { s with subscription := none }
      let w := logE w (Ev.cancelSub subId)
      pushHook w sid HookName.onCancel

/-- `StreamSubscription.cancel()`: delegates to the owning stream's
`cancel(this)`. -/
def subCancel (w : World) (subId : Nat) : World :=
  match w.subs[subId]? with
  | some sub => streamCancel w sub.stream subId
  | none => w

/-- Settling a JS promise: the first call wins, later calls are no-ops. -/
def settle (w : World) (pid : Nat) (r : SettleR) : World :=
  match w.promises[pid]? with
  | none => w
  | some p =>
    if p.settled.isSome then w
    else logE (modP w pid fun q => { q with settled := some r }) (Ev.settle pid r)

/-- `cancelAndFulfill(v, sub, fulfill)` (stream_utils.ts): cancels the
subscription, then fulfills (resolves or rejects) with the value. -/
def cancelAndFulfill (w : World) (subId : Nat) (pid : Nat) (r : SettleR) : World :=
  settle (subCancel w subId) pid r

/-- The synchronous part of `Stream._emit`: if paused or there is no active
subscription, do nothing; otherwise schedule the drain on the next tick
(the drain itself is `Task.emitT`, executed by `runTask`). -/
def emitSchedule (w : World) (sid : Nat) : World :=
  match getS w sid with
  | none => w
  | some s =>
    if s.isPausedF || s.subscription.isNone then w
    else { w with queue := w.queue ++ [Task.emitT sid] }

/-- `Stream.add(data)`: fails if closed, appends a Data message, schedules
delivery. -/
def baseAdd (w : World) (sid : Nat) (v : Nat) : Except Thrown World :=
  match getS w sid with
  | none => Except.error Thrown.missing
  | some s =>
    if s.isClosed then Except.error Thrown.closedAdd
    else Except.ok (emitSchedule (setS w sid { s with buffer := s.buffer ++ [Msg.data v] }) sid)

/-- `Stream.addError(message)`: fails if closed, appends an Error message,
schedules delivery. -/
def baseAddError (w : World) (sid : Nat) (e : Nat) : Except Thrown World :=
  match getS w sid with
  | none => Except.error Thrown.missing
  | some s =>
    if s.isClosed then Except.error Thrown.closedAddError
    else Except.ok (emitSchedule (setS w sid { s with buffer := s.buffer ++ [Msg.error e] }) sid)

/-- `Stream.close()`: sets the closed flag, appends a Done message, schedules
delivery.  Note there is no guard: calling it again appends another Done. -/
def baseClose (w : World) (sid : Nat) : World :=
  match getS w sid with
  | none => w
  | some s =>
    emitSchedule (setS w sid { s with isClosed := true, buffer := s.buffer ++ [Msg.done] }) sid

/-- `close()` dispatched by variant: the base behaviour; `_filteringStream`
first cancels its parent subscription (if any) and then performs the base
close; `_broadcastStream` sets closed, cancels its parent subscription and
schedules a Done fan-out to all current subscribers. -/
def streamClose (w : World) (sid : Nat) : World :=
  match getS w sid with
  | none => w
  | some s =>
    match s.tag with
    | Tag.base => baseClose w sid
    | Tag.broadcast =>
      let w := setS w sid { s with isClosed := true }
      let w :=
        match s.parentSub with
        | some ps => modS (subCancel w ps) sid fun t => { t with parentSub := none }
        | none => modS w sid fun t => { t with parentSub := none }
      { w with queue := w.queue ++ [Task.fanDoneT sid] }
    | _ =>
      let w :=
        match s.parentSub with
        | some ps => modS (subCancel w ps) sid fun t => { t with parentSub := none }
        | none => w
      baseClose w sid

/-- `add(data)` dispatched by variant, mirroring each subclass override:
base/`_filteringStream` use the base `add`; `_broadcastStream.add` bypasses the
buffer and schedules an immediate fan-out; `_takeStream.add` republishes while
under the count then closes; `_takeWhileStream.add` republishes while the
predicate holds and otherwise (false, predicate throw, or a throwing
`super.add`) closes, swallowing the exception; `_skipStream.add` drops the
first n; `_skipWhileStream.add` drops while skipping and the predicate holds,
a predicate throw being swallowed and ending skip mode; `_whereStream.add`
republishes matching values and lets a predicate throw propagate. -/
def streamAdd (w : World) (sid : Nat) (v : Nat) : Except Thrown World :=
  match getS w sid with
  | none => Except.error Thrown.missing
  | some s =>
    match s.tag with
    | Tag.base => baseAdd w sid v
    | Tag.filtering => baseAdd w sid v
    | Tag.broadcast =>
      if s.isClosed then Except.error Thrown.closedAdd
      else Except.ok { w with queue := w.queue ++ [Task.fanT sid (Msg.data v)] }
    | Tag.takeT => do
      let w ←
        if s.taken < s.takeAmount then do
          let w' ← baseAdd w sid v
          pure (modS w' sid fun t => { t with taken := t.taken + 1 })
        else pure w
      match getS w sid with
      | some t => if t.takeAmount ≤ t.taken then pure (streamClose w sid) else pure w
      | none => pure w
    | Tag.takeWhileT =>
      match s.cond v with
      | PredR.ret true =>
        match baseAdd w sid v with
        | Except.ok w' => Except.ok w'
        | Except.error _ => Except.ok (streamClose w sid)
      | PredR.ret false => Except.ok (streamClose w sid)
      | PredR.thrown _ => Except.ok (streamClose w sid)
    | Tag.skipT =>
      if s.skipped < s.skipAmount then
        Except.ok (setS w sid { s with skipped := s.skipped + 1 })
      else baseAdd w sid v
    | Tag.skipWhileT =>
      match (if s.isSkipping then some (s.cond v) else none) with
      | some (PredR.ret true) => Except.ok w
      | _ => baseAdd (setS w sid { s with isSkipping := false }) sid v
    | Tag.whereT =>
      match s.cond v with
      | PredR.ret true => baseAdd w sid v
      | PredR.ret false => Except.ok w
      | PredR.thrown e => Except.error (Thrown.user e)

/-- `addError` dispatched by variant: only `_broadcastStream` overrides it
(immediate fan-out, no buffering); every other variant inherits the base
behaviour. -/
def streamAddError (w : World) (sid : Nat) (e : Nat) : Except Thrown World :=
  match getS w sid with
  | none => Except.error Thrown.missing
  | some s =>
    match s.tag with
    | Tag.broadcast =>
      if s.isClosed then Except.error Thrown.closedAddError
      else Except.ok { w with queue := w.queue ++ [Task.fanT sid (Msg.error e)] }
    | _ => baseAddError w sid e

/-- `pause()`: idempotent; a no-op on broadcast streams. -/
def streamPause (w : World) (sid : Nat) : World :=
  match getS w sid with
  | none => w
  | some s =>
    match s.tag with
    | Tag.broadcast => w
    | _ =>
      if s.isPausedF then w
      else pushHook (setS w sid { s with isPausedF := true }) sid HookName.onPause

/-- `resume()`: idempotent; fires onResume and re-schedules delivery; a no-op
on broadcast streams. -/
def streamResume (w : World) (sid : Nat) : World :=
  match getS w sid with
  | none => w
  | some s =>
    match s.tag with
    | Tag.broadcast => w
    | _ =>
      if s.isPausedF then
        emitSchedule (pushHook (setS w sid { s with isPausedF := false }) sid HookName.onResume) sid
      else w

/-- Dispatch of a Data message to a subscription's listener
(`StreamSubscription._emit`, Data case).  `subId` is the subscription whose
flush is delivering — the `sub` closed over by the aggregator handlers. -/
def deliverData (w : World) (subId : Nat) (cb : DataCb) (v : Nat) : Except Thrown World :=
  match cb with
  | DataCb.obs lid => Except.ok (logE w (Ev.data lid v))
  | DataCb.addTo sid => streamAdd w sid v
  | DataCb.everyData pid cond =>
    match cond v with
    | PredR.ret true => Except.ok w
    | PredR.ret false => Except.ok (cancelAndFulfill w subId pid (SettleR.rejBool false))
    | PredR.thrown _ => Except.ok (cancelAndFulfill w subId pid (SettleR.rejBool false))
  | DataCb.firstData pid => Except.ok (cancelAndFulfill w subId pid (SettleR.resNat v))
  | DataCb.firstWhereData pid cond =>
    match cond v with
    | PredR.ret true => Except.ok (cancelAndFulfill w subId pid (SettleR.resNat v))
    | PredR.ret false => Except.ok w
    | PredR.thrown t => Except.ok (cancelAndFulfill w subId pid (SettleR.rejNat t))
  | DataCb.forEachData pid f =>
    match f v with
    | PredR.ret _ => Except.ok w
    | PredR.thrown t => Except.ok (cancelAndFulfill w subId pid (SettleR.rejNat t))
  | DataCb.reduceData pid red =>
    match w.promises[pid]? with
    | none => Except.ok w
    | some p =>
      match p.collected.head? with
      | none => Except.ok (modP w pid fun q => { q with collected := [v] })
      | some acc =>
        match red acc v with
        | Except.ok n => Except.ok (modP w pid fun q => { q with collected := [n] })
        | Except.error t => Except.ok (cancelAndFulfill w subId pid (SettleR.rejNat t))
  | DataCb.toArrayData pid =>
    Except.ok (modP w pid fun p => { p with collected := p.collected ++ [v] })
  | DataCb.toSetData pid =>
    Except.ok (modP w pid fun p =>
      { p with collected := if p.collected.contains v then p.collected
                            else p.collected ++ [v] })

/-- Dispatch of an Error message to a subscription's onError callback. -/
def deliverErr (w : World) (subId : Nat) (cb : ErrCb) (e : Nat) : Except Thrown World :=
  match cb with
  | ErrCb.obsErr lid => Except.ok (logE w (Ev.err lid e))
  | ErrCb.addErrorTo sid => streamAddError w sid e
  | ErrCb.rejectWith pid => Except.ok (cancelAndFulfill w subId pid (SettleR.rejNat e))

/-- Dispatch of a Done message to a subscription's onDone callback.  `subId`
is the subscription the aggregator handlers close over; only `firstWhere`'s
onDone uses it (via `cancelAndFulfill`) — all the other aggregators settle
directly here without cancelling. -/
def deliverDone (w : World) (subId : Nat) (cb : DoneCb) : World :=
  match cb with
  | DoneCb.obsDone lid => logE w (Ev.done lid)
  | DoneCb.closeOf sid => streamClose w sid
  | DoneCb.everyDone pid => settle w pid (SettleR.resBool true)
  | DoneCb.firstDone pid => settle w pid SettleR.rejEmptyError
  | DoneCb.firstWhereDone pid => cancelAndFulfill w subId pid SettleR.rejNull
  | DoneCb.forEachDone pid => settle w pid SettleR.resUndef
  | DoneCb.reduceDone pid =>
    match w.promises[pid]? with
    | some p =>
      match p.collected.head? with
      | some acc => settle w pid (SettleR.resNat acc)
      | none => settle w pid SettleR.resUndef
    | none => w
  | DoneCb.toArrayDone pid =>
    match w.promises[pid]? with
    | some p => settle w pid (SettleR.resList p.collected)
    | none => w
  | DoneCb.toSetDone pid =>
    match w.promises[pid]? with
    | some p => settle w pid (SettleR.resList p.collected)
    | none => w

/-- One step of `StreamSubscription._emit`'s flush loop: Data goes to the
listener; Error goes to the optional onError, then `cancelOnError` triggers
`cancel()`; Done goes to the optional onDone. -/
def deliverMsg (w : World) (subId : Nat) (m : Msg) : Except Thrown World :=
  match w.subs[subId]? with
  | none => Except.ok w
  | some sub =>
    match m with
    | Msg.data v => deliverData w subId sub.onData v
    | Msg.error e => do
      let w' ←
        match sub.onError with
        | some cb => deliverErr w subId cb e
        | none => Except.ok w
      Except.ok (if sub.cancelOnError then subCancel w' subId else w')
    | Msg.done =>
      match sub.onDone with
      | some cb => Except.ok (deliverDone w subId cb)
      | none => Except.ok w

/-- The flush loop body of `StreamSubscription._emit` over a snapshot of the
inbound buffer (JS `forEach` does not visit elements appended mid-loop). -/
def subEmitGo (subId : Nat) : World → List Msg → Except Thrown World
  | w, [] => Except.ok w
  | w, m :: rest => do
    let w' ← deliverMsg w subId m
    subEmitGo subId w' rest

/-- `StreamSubscription._emit()`: a no-op while paused; otherwise flushes the
whole inbound buffer to the callbacks and then clears it. -/
def subEmit (w : World) (subId : Nat) : Except Thrown World :=
  match w.subs[subId]? with
  | none => Except.ok w
  | some sub =>
    if sub.isPausedF then Except.ok w
    else do
      let w' ← subEmitGo subId w sub.buffer
      Except.ok (modSub w' subId fun s => { s with buffer := [] })

/-- `StreamSubscription.messageHandler(message)`: buffer the message, then
attempt a flush. -/
def subMessageHandler (w : World) (subId : Nat) (m : Msg) : Except Thrown World :=
  subEmit (modSub w subId fun s => { s with buffer := s.buffer ++ [m] }) subId

/-- `StreamSubscription.pause()`: idempotent; fires onPause (observing
listeners record nothing for it) and pauses the owning stream. -/
def subPause (w : World) (subId : Nat) : World :=
  match w.subs[subId]? with
  | none => w
  | some sub =>
    if sub.isPausedF then w
    else streamPause (modSub w subId fun s => { s with isPausedF := true }) sub.stream

/-- `StreamSubscription.resume()`: idempotent; resumes the owning stream and
re-attempts a flush. -/
def subResume (w : World) (subId : Nat) : Except Thrown World :=
  match w.subs[subId]? with
  | none => Except.ok w
  | some sub =>
    if sub.isPausedF then
      subEmit (streamResume (modSub w subId fun s => { s with isPausedF := false }) sub.stream) subId
    else Except.ok w

/-- The loop body of `Stream._emit`'s drain closure: each buffered message is
handed to the stream's *current* subscription if one is still attached
(`if (this._subscription) ...` re-checked per message, so a cancellation
mid-drain skips the remaining messages). -/
def drainLoop (sid : Nat) : World → List Msg → Except Thrown World
  | w, [] => Except.ok w
  | w, m :: rest =>
    match getS w sid with
    | none => drainLoop sid w rest
    | some s =>
      match s.subscription with
      | some subId => do
        let w' ← subMessageHandler w subId m
        drainLoop sid w' rest
      | none => drainLoop sid w rest

/-- The fan-out loop of `_broadcastStream.add`/`addError`/`close`: hand the
captured message to every subscriber in the (snapshotted) set, in insertion
order. -/
def fanLoop (m : Msg) : World → List Nat → Except Thrown World
  | w, [] => Except.ok w
  | w, subId :: rest => do
    let w' ← subMessageHandler w subId m
    fanLoop m w' rest

/-- The body of the base `Stream.listen`: fails with the `AlreadyListening`
usage error if a subscription already exists, otherwise creates the
subscription, fires onListen (deferred) and schedules delivery of anything
buffered.  Returns the new subscription's id. -/
def baseListenCore (w : World) (sid : Nat) (onData : DataCb) (onError : Option ErrCb)
    (onDone : Option DoneCb) (cOnErr : Bool) : Except Thrown (Nat × World) :=
  match getS w sid with
  | none => Except.error Thrown.missing
  | some s =>
    if s.subscription.isSome then Except.error Thrown.alreadyListening
    else
      let subId := w.subs.length
      let sub : SubState :=
        { stream := sid, onData := onData, onError := onError,
          onDone := onDone, cancelOnError := cOnErr }
      let w := { w with subs := w.subs ++ [sub] }
      let w := setS w sid { s with subscription := some subId }
      let w := pushHook w sid HookName.onListen
      Except.ok (subId, emitSchedule w sid)

/-- `listen` dispatched by variant.  `_filteringStream.listen` lazily
subscribes once to the parent (wiring parent Data→this.add, Error→this.addError,
Done→this.close) and then delegates to the base `listen`.
`_broadcastStream.listen` does the same lazy parent subscription, then adds the
new subscription to its set, fires onListen and — if already closed — re-runs
`close()` so the new listener still receives a Done.  The fuel bounds the
recursion up the parent chain. -/
def streamListen : Nat → World → Nat → DataCb → Option ErrCb → Option DoneCb → Bool →
    Except Thrown (Nat × World)
  | 0, _, _, _, _, _, _ => Except.error Thrown.missing
  | Nat.succ fuel, w, sid, onData, onError, onDone, cOnErr =>
    match getS w sid with
    | none => Except.error Thrown.missing
    | some s =>
      match s.tag with
      | Tag.base => baseListenCore w sid onData onError onDone cOnErr
      | Tag.broadcast => do
        let w ←
          if s.parentSub.isNone then
            match s.parent with
            | some pid => do
              let r ← streamListen fuel w pid (DataCb.addTo sid)
                        (some (ErrCb.addErrorTo sid)) (some (DoneCb.closeOf sid)) false
              pure (modS r.2 sid fun t => { t with parentSub := some r.1 })
            | none => pure w
          else pure w
        let subId := w.subs.length
        let sub : SubState :=
          { stream := sid, onData := onData, onError := onError,
            onDone := onDone, cancelOnError := cOnErr }
        let w := { w with subs := w.subs ++ [sub] }
        let w := modS w sid fun t => { t with subscribers := t.subscribers ++ [subId] }
        let w := pushHook w sid HookName.onListen
        let w := if (getS w sid).elim false (·.isClosed) then streamClose w sid else w
        Except.ok (subId, w)
      | _ => do
        let w ←
          if s.parentSub.isNone then
            match s.parent with
            | some pid => do
              let r ← streamListen fuel w pid (DataCb.addTo sid)
                        (some (ErrCb.addErrorTo sid)) (some (DoneCb.closeOf sid)) false
              pure (modS r.2 sid fun t => { t with parentSub := some r.1 })
            | none => pure w
          else pure w
        baseListenCore w sid onData onError onDone cOnErr

/-- Execution of one scheduled `nextTick` callback.
`emitT`: the drain closure of `Stream._emit` — deliver every buffered message
to the current subscription, clear the buffer, and if the stream is closed and
still has a subscription, cancel it.
`hookT`: run the registered event callbacks (observed in the log).
`fanT` / `fanDoneT`: `_broadcastStream`'s deferred fan-outs over the current
subscriber set. -/
def runTask (w : World) (t : Task) : Except Thrown World :=
  match t with
  | Task.hookT sid h => Except.ok (logE w (Ev.hook sid h))
  | Task.emitT sid =>
    match getS w sid with
    | none => Except.ok w
    | some s => do
      let w' ← drainLoop sid w s.buffer
      let w' := modS w' sid fun t => { t with buffer := [] }
      match getS w' sid with
      | some t2 =>
        match t2.subscription with
        | some subId =>
          Except.ok (if t2.isClosed then streamCancel w' sid subId else w')
        | none => Except.ok w'
      | none => Except.ok w'
  | Task.fanT sid m =>
    match getS w sid with
    | none => Except.ok w
    | some s => fanLoop m w s.subscribers
  | Task.fanDoneT sid =>
    match getS w sid with
    | none => Except.ok w
    | some s => fanLoop Msg.done w s.subscribers

/-- The host `nextTick` loop: run queued callbacks in FIFO order, callbacks
scheduled during execution going to the back of the queue.  The fuel bounds
how many callbacks are executed; every theorem below checks that the final
queue is empty, i.e. that the fuel sufficed to reach quiescence. -/
def runQueue : Nat → World → Except Thrown World
  | 0, w => Except.ok w
  | Nat.succ fuel, w =>
    match w.queue with
    | [] => Except.ok w
    | t :: rest => do
      let w' ← runTask { w with queue := rest } t
      runQueue fuel w'

/-- Allocate a new stream object; returns its id. -/
def newStream (w : World) (s : StreamState) : Nat × World :=
  (w.streams.length, { w with streams := w.streams ++ [s] })

/-- `new Stream()` — the base, single-consumer stream (also the backing
`_srcStream` of a non-broadcast `StreamController`, whose `add`/`addError`/
`close`/`stream` simply forward to it). -/
def newBase (w : World) : Nat × World :=
  newStream w { tag := Tag.base }

/-- `Stream.asBroadcastStream()`: a multi-listener stream wired to this
stream as parent. -/
def asBroadcastStream (w : World) (parent : Nat) : Nat × World :=
  newStream w { tag := Tag.broadcast, parent := some parent }

/-- `Stream.fromStream(stream)` / `new _filteringStream(stream)`. -/
def fromStream (w : World) (parent : Nat) : Nat × World :=
  newStream w { tag := Tag.filtering, parent := some parent }

/-- `Stream.take(n)` — `new _takeStream(this, n)`. -/
def takeStream (w : World) (parent : Nat) (n : Nat) : Nat × World :=
  newStream w { tag := Tag.takeT, parent := some parent, takeAmount := n }

/-- `Stream.takeWhile(condition)` — `new _takeWhileStream(this, condition)`. -/
def takeWhileStream (w : World) (parent : Nat) (c : Nat → PredR) : Nat × World :=
  newStream w { tag := Tag.takeWhileT, parent := some parent, cond := c }

/-- `Stream.skip(n)` — `new _skipStream(this, n)`. -/
def skipStream (w : World) (parent : Nat) (n : Nat) : Nat × World :=
  newStream w { tag := Tag.skipT, parent := some parent, skipAmount := n }

/-- `Stream.skipWhile(condition)` — `new _skipWhileStream(this, condition)`. -/
def skipWhileStream (w : World) (parent : Nat) (c : Nat → PredR) : Nat × World :=
  newStream w { tag := Tag.skipWhileT, parent := some parent, cond := c }

/-- `Stream.where(condition)` — `new _whereStream(this, condition)`. -/
def whereStream (w : World) (parent : Nat) (c : Nat → PredR) : Nat × World :=
  newStream w { tag := Tag.whereT, parent := some parent, cond := c }

/-- Allocate a fresh pending promise; returns its id. -/
def newPromise (w : World) : Nat × World :=
  (w.promises.length, { w with promises := w.promises ++ [{}] })

/-- `Stream.every(condition)`: subscribes with the every-handlers for a fresh
promise; returns the promise id (the subscription id is interior). -/
def everyP (fuel : Nat) (w : World) (sid : Nat) (c : Nat → PredR) :
    Except Thrown (Nat × World) := do
  let (pid, w) := newPromise w
  let r ← streamListen fuel w sid (DataCb.everyData pid c)
            (some (ErrCb.rejectWith pid)) (some (DoneCb.everyDone pid)) false
  Except.ok (pid, r.2)

/-- `Stream.toArray()`: subscribes with the toArray-handlers for a fresh
promise. -/
def toArrayP (fuel : Nat) (w : World) (sid : Nat) : Except Thrown (Nat × World) := do
  let (pid, w) := newPromise w
  let r ← streamListen fuel w sid (DataCb.toArrayData pid)
            (some (ErrCb.rejectWith pid)) (some (DoneCb.toArrayDone pid)) false
  Except.ok (pid, r.2)

/-- `Stream.fromPromises(promises)`: creates a `StreamController` (non-broadcast,
so its externally visible stream is the backing base stream itself) and, for
each promise of the iterable, increments `count` and attaches the settlement
handlers.  Returns the stream id and the final value of `count` after the
loop (`count` starts at 0 and is incremented once per promise). -/
def fromPromises (ps : List Unit) (w : World) : Nat × Nat × World :=
  let (sid, w) := newBase w
  (sid, ps.foldl (fun count _ => count + 1) 0, w)

/-- The `onData` handler inside `Stream.fromPromises`: when an external
promise fulfills with `v`, if the controller is not closed, add the value,
decrement `count`, and close when it reaches zero.  Returns the new count. -/
def fpOnData (w : World) (sid : Nat) (count : Nat) (v : Nat) : Nat × Except Thrown World :=
  match getS w sid with
  | none => (count, Except.error Thrown.missing)
  | some s =>
    if s.isClosed then (count, Except.ok w)
    else
      let count := count - 1
      (count, do
        let w' ← streamAdd w sid v
        Except.ok (if count = 0 then streamClose w' sid else w'))

/-- The `onError` handler inside `Stream.fromPromises`: symmetric to
`fpOnData` for a rejected external promise. -/
def fpOnError (w : World) (sid : Nat) (count : Nat) (e : Nat) : Nat × Except Thrown World :=
  match getS w sid with
  | none => (count, Except.error Thrown.missing)
  | some s =>
    if s.isClosed then (count, Except.ok w)
    else
      let count := count - 1
      (count, do
        let w' ← streamAddError w sid e
        Except.ok (if count = 0 then streamClose w' sid else w'))

/-- The values delivered to observing listener `lid`, in log order. -/
def dataLog (log : List Ev) (lid : Nat) : List Nat :=
  log.filterMap fun e =>
    match e with
    | Ev.data l v => if l = lid then some v else none
    | _ => none

/-- How many times observing listener `lid`'s onDone callback fired. -/
def doneCount (log : List Ev) (lid : Nat) : Nat :=
  log.countP fun e =>
    match e with
    | Ev.done l => l = lid
    | _ => false

/-- Number of Done messages in a buffer. -/
def countDoneMsgs (buf : List Msg) : Nat :=
  buf.countP fun m =>
    match m with
    | Msg.done => true
    | _ => false

/-- Every message after the first Done message is itself a Done message
(i.e. no Data/Error ever follows a Done in the buffer). -/
def donesTrailing : List Msg → Bool
  | [] => true
  | Msg.done :: rest => rest.all fun m =>
      match m with
      | Msg.done => true
      | _ => false
  | _ :: rest => donesTrailing rest

/-- The settled state of promise `pid` in `w` (`none` while pending). -/
def promiseResult (w : World) (pid : Nat) : Option SettleR :=
  (w.promises[pid]?).bind (·.settled)

/-- Producer operations for operation-sequence claims. -/
inductive POp where
  | addOp (v : Nat)
  | addErrorOp (e : Nat)
  | closeOp

/-- Apply one producer operation to stream `sid`. -/
def applyOp (w : World) (sid : Nat) (op : POp) : Except Thrown World :=
  match op with
  | POp.addOp v => streamAdd w sid v
  | POp.addErrorOp e => streamAddError w sid e
  | POp.closeOp => Except.ok (streamClose w sid)

/-- Run a sequence of producer operations, a failing (throwing) call leaving
the world unchanged (the producer catches and carries on). -/
def runOps (sid : Nat) : World → List POp → World
  | w, [] => w
  | w, op :: rest =>
    match applyOp w sid op with
    | Except.ok w' => runOps sid w' rest
    | Except.error _ => runOps sid w rest

/-- Number of `closeOp`s in an operation sequence. -/
def countClose (ops : List POp) : Nat :=
  ops.countP fun op =>
    match op with
    | POp.closeOp => true
    | _ => false

/-- Add a list of values to a stream in order (synchronous producer calls). -/
def addAll (sid : Nat) : World → List Nat → Except Thrown World
  | w, [] => Except.ok w
  | w, v :: rest => do
    let w' ← streamAdd w sid v
    addAll sid w' rest

/-- C1 scenario: a fresh base stream receives `add` calls for `vs`
synchronously before any `listen`; then a listener attaches and the deferred
queue runs to quiescence. -/
def c1Run (vs : List Nat) : Except Thrown World := do
  let (sid, w) := newBase World.empty
  let w ← addAll sid w vs
  let r ← streamListen 3 w sid (DataCb.obs 0) none (some (DoneCb.obsDone 0)) false
  runQueue 4 r.2

/-- C2 scenario: a sequence of producer operations against a fresh base
stream with no listener attached. -/
def c2Run (ops : List POp) : World :=
  let (sid, w) := newBase World.empty
  runOps sid w ops

/-- C3 scenario: `parent.take(n)` with a listener attached, then the parent
receives `add` calls for `vs` synchronously; the queue then runs to
quiescence.  Stream 0 is the parent, stream 1 the take stream. -/
def c3Run (n : Nat) (vs : List Nat) : Except Thrown World := do
  let (s, w) := newBase World.empty
  let (t, w) := takeStream w s n
  let r ← streamListen 3 w t (DataCb.obs 0) none (some (DoneCb.obsDone 0)) false
  let w ← addAll s r.2 vs
  runQueue (2 * vs.length + 12) w

/-- C4 same-tick scenario: broadcast stream over a base parent; listener 1
attaches, `add v` is called, listener 2 attaches in the same synchronous
block (before any tick has run); then the queue drains. -/
def c4SyncRun (v : Nat) : Except Thrown World := do
  let (s, w) := newBase World.empty
  let (b, w) := asBroadcastStream w s
  let r1 ← streamListen 3 w b (DataCb.obs 1) none (some (DoneCb.obsDone 1)) false
  let w ← streamAdd r1.2 b v
  let r2 ← streamListen 3 w b (DataCb.obs 2) none (some (DoneCb.obsDone 2)) false
  runQueue 12 r2.2

/-- C4 late scenario: as `c4SyncRun` but listener 2 attaches only after the
fan-out tick has already run. -/
def c4LateRun (v : Nat) : Except Thrown World := do
  let (s, w) := newBase World.empty
  let (b, w) := asBroadcastStream w s
  let r1 ← streamListen 3 w b (DataCb.obs 1) none (some (DoneCb.obsDone 1)) false
  let w ← streamAdd r1.2 b v
  let w ← runQueue 12 w
  let r2 ← streamListen 3 w b (DataCb.obs 2) none (some (DoneCb.obsDone 2)) false
  runQueue 12 r2.2

/-- C6 scenario: producer operations (`vs` data values, then `tail`
operations) buffered on a fresh base stream before `every(cond)` subscribes;
then the queue runs.  Promise id 0. -/
def c6Run (c : Nat → PredR) (vs : List Nat) (tail : List POp) : Except Thrown World := do
  let (s, w) := newBase World.empty
  let w ← addAll s w vs
  let w := runOps s w tail
  let r ← everyP 3 w s c
  runQueue (vs.length + tail.length + 8) r.2

/-- C9 scenario: broadcast stream over a base parent; `1 + k` listeners
attach (lid 10, then lids 11..10+k), the broadcast stream is closed and the
queue drains (every listener's onDone fires once); then one more listener
(lid 0) attaches and the queue drains again. -/
def c9Run (k : Nat) : Except Thrown World := do
  let (s, w) := newBase World.empty
  let (b, w) := asBroadcastStream w s
  let r0 ← streamListen 3 w b (DataCb.obs 10) none (some (DoneCb.obsDone 10)) false
  let w ← (List.range k).foldlM (fun w i => do
      let r ← streamListen 3 w b (DataCb.obs (11 + i)) none (some (DoneCb.obsDone (11 + i))) false
      pure r.2) r0.2
  let w := streamClose w b
  let w ← runQueue (2 * k + 12) w
  let r ← streamListen 3 w b (DataCb.obs 0) none (some (DoneCb.obsDone 0)) false
  runQueue (2 * k + 12) r.2

/-- C10 scenario: `fromPromises` over the empty iterable, with a `toArray`
consumer attached; the queue runs to quiescence. -/
def c10Run : Except Thrown World := do
  let (sid, _count, w) := fromPromises [] World.empty
  let r ← toArrayP 3 w sid
  runQueue 6 r.2

/-- Extract the world of a successful run (`World.empty` on a thrown run —
all theorems also assert the run did not throw). -/
def forceW : Except Thrown World → World
  | Except.ok w => w
  | Except.error _ => World.empty

/-- Whether a run completed without an uncaught exception. -/
def okE : Except Thrown World → Bool
  | Except.ok _ => true
  | Except.error _ => false

lemma bindE_ok {α β : Type} (a : α) (f : α → Except Thrown β) :
    (Except.ok a >>= f : Except Thrown β) = f a := rfl

lemma bindE_error {α β : Type} (e : Thrown) (f : α → Except Thrown β) :
    (Except.error e >>= f : Except Thrown β) = Except.error e := rfl

lemma runQueue_empty (f : Nat) (w : World) (h : w.queue = []) : runQueue f w = Except.ok w := by
  cases f with
  | zero => rfl
  | succ f => simp [runQueue, h]

/-- `drainLoop` does nothing when the stream has no attached subscription
(the per-message `if (this._subscription)` guard). -/
lemma drainLoop_no_sub (sid : Nat) (msgs : List Msg) (w : World)
    (h : ∀ s, getS w sid = some s → s.subscription = none) :
    drainLoop sid w msgs = Except.ok w := by
  induction msgs with
  | nil => rfl
  | cons m rest ih =>
    unfold drainLoop
    cases hs : getS w sid with
    | none => exact ih
    | some s =>
      dsimp only
      rw [h s hs]
      exact ih

/-- C8: on a base (non-broadcast) stream that already holds an active
subscription, any further `listen` call fails with the `AlreadyListening`
usage error — the thrown call performs no state change, so the existing
subscription stays in place — and this holds whatever callbacks are passed
and whatever fuel drives the embedding's recursion. -/
theorem listen_twice_fails (f : Nat) (w : World) (sid : Nat) (s : StreamState) (subId : Nat)
    (cb : DataCb) (oe : Option ErrCb) (od : Option DoneCb) (co : Bool)
    (hs : getS w sid = some s) (htag : s.tag = Tag.base)
    (hsub : s.subscription = some subId) :
    streamListen (f + 1) w sid cb oe od co = Except.error Thrown.alreadyListening := by
  simp [streamListen, hs, htag, baseListenCore, hsub]

/-- Witness for C8: a concrete world with a base stream already listened to. -/
def c8World : World :=
  { streams := [{ tag := Tag.base, subscription := some 0 }],
    subs := [{ stream := 0, onData := DataCb.obs 0 }] }

theorem listen_twice_fails_witness :
    getS c8World 0 = some { tag := Tag.base, subscription := some 0 } ∧
    streamListen 1 c8World 0 (DataCb.obs 5) none none false =
      Except.error Thrown.alreadyListening := by
  constructor
  · rfl
  · exact listen_twice_fails 0 c8World 0 { tag := Tag.base, subscription := some 0 } 0
      (DataCb.obs 5) none none false rfl rfl rfl

/-- C7: behaviour of the derived-stream `add` overrides on a value for which
the user predicate throws.  `_whereStream.add` lets the exception propagate
uncaught out of the add path; `_takeWhileStream.add` swallows it and closes
the derived stream without republishing the value (its effect is exactly
`close()`); `_skipWhileStream.add` swallows it, permanently leaves skipping
mode and hands the value to the base `add` (republishing it). -/
theorem predicate_throw_paths (w : World) (sid : Nat) (s : StreamState) (v e : Nat)
    (hs : getS w sid = some s) (hc : s.cond v = PredR.thrown e) :
    (s.tag = Tag.whereT → streamAdd w sid v = Except.error (Thrown.user e)) ∧
    (s.tag = Tag.takeWhileT → streamAdd w sid v = Except.ok (streamClose w sid)) ∧
    (s.tag = Tag.skipWhileT →
      streamAdd w sid v = baseAdd (setS w sid { s with isSkipping := false }) sid v) := by
  refine ⟨fun h => ?_, fun h => ?_, fun h => ?_⟩
  · simp [streamAdd, hs, h, hc]
  · simp [streamAdd, hs, h, hc]
  · by_cases hsk : s.isSkipping <;> simp [streamAdd, hs, h, hc, hsk]

/-- Witness worlds for C7: where / takeWhile / skipWhile streams over parent 0
whose predicate throws `3` on every value. -/
def c7World (t : Tag) : World :=
  { streams := [{ tag := Tag.base },
                { tag := t, parent := some 0, cond := fun _ => PredR.thrown 3 }] }

theorem predicate_throw_paths_witness :
    (streamAdd (c7World Tag.whereT) 1 7 = Except.error (Thrown.user 3)) ∧
    (streamAdd (c7World Tag.takeWhileT) 1 7 =
      Except.ok (streamClose (c7World Tag.takeWhileT) 1)) ∧
    (streamAdd (c7World Tag.skipWhileT) 1 7 =
      baseAdd (setS (c7World Tag.skipWhileT) 1
        { tag := Tag.skipWhileT, parent := some 0, cond := fun _ => PredR.thrown 3,
          isSkipping := false }) 1 7) := by
  refine ⟨?_, ?_, ?_⟩
  · exact (predicate_throw_paths (c7World Tag.whereT) 1
      { tag := Tag.whereT, parent := some 0, cond := fun _ => PredR.thrown 3 } 7 3
      rfl rfl).1 rfl
  · exact (predicate_throw_paths (c7World Tag.takeWhileT) 1
      { tag := Tag.takeWhileT, parent := some 0, cond := fun _ => PredR.thrown 3 } 7 3
      rfl rfl).2.1 rfl
  · exact (predicate_throw_paths (c7World Tag.skipWhileT) 1
      { tag := Tag.skipWhileT, parent := some 0, cond := fun _ => PredR.thrown 3 } 7 3
      rfl rfl).2.2 rfl

/-- C10: `fromPromises` over the empty iterable: the internal `count` ends at
0 without ever being incremented, and the resulting stream is never closed —
after a `toArray` consumer attaches and the deferred queue runs to quiescence,
the stream is still open with an empty buffer (no Done message was ever
emitted), no onDone/settle event ever occurred, the aggregator's promise is
still pending, and the task queue is empty so nothing can ever change that. -/
theorem fromPromises_empty_never_closes :
    (fromPromises [] World.empty).2.1 = 0 ∧
    okE c10Run = true ∧
    (getS (forceW c10Run) 0).map (fun s => (s.isClosed, s.buffer)) = some (false, []) ∧
    (forceW c10Run).queue = [] ∧
    promiseResult (forceW c10Run) 0 = none ∧
    (forceW c10Run).log = [Ev.hook 0 HookName.onListen] := by
  decide

/-- C4 counterexample: on a broadcast stream, a listener attached *after* the
`add` call but in the same synchronous block (before the deferred fan-out
tick has run) DOES receive the value — the fan-out iterates the subscriber
set at tick time, not at publication time — contradicting "a Subscription
created by a listen call issued after that add call never receives the
value". -/
theorem broadcast_same_tick_late_listener_receives :
    okE (c4SyncRun 7) = true ∧
    dataLog (forceW (c4SyncRun 7)).log 1 = [7] ∧
    dataLog (forceW (c4SyncRun 7)).log 2 = [7] := by
  decide

/-- C4 amended: a value published on a broadcast stream via `add` is
delivered, on the deferred fan-out tick, to every Subscription in the
subscriber set at the time that tick runs — including subscriptions added by
`listen` calls issued after `add` but before the tick — while a Subscription
created after the fan-out tick has already run never receives the value: the
run ends quiescent (empty queue, nothing buffered anywhere), the late
listener having received nothing. -/
theorem broadcast_fanout_delivery (v : Nat) :
    (okE (c4SyncRun v) = true ∧
      dataLog (forceW (c4SyncRun v)).log 1 = [v] ∧
      dataLog (forceW (c4SyncRun v)).log 2 = [v]) ∧
    (okE (c4LateRun v) = true ∧
      dataLog (forceW (c4LateRun v)).log 1 = [v] ∧
      dataLog (forceW (c4LateRun v)).log 2 = [] ∧
      (forceW (c4LateRun v)).queue = [] ∧
      ((forceW (c4LateRun v)).streams.map (fun s => s.buffer) = [[], []]) ∧
      ((forceW (c4LateRun v)).subs.map (fun s => s.buffer) = [[], [], []])) := by
  refine ⟨⟨?_, ?_, ?_⟩, ?_, ?_, ?_, ?_, ?_, ?_⟩ <;>
  simp [c4SyncRun, c4LateRun, newBase, newStream, asBroadcastStream,
    newPromise, streamListen, baseListenCore, getS, setS, modS, modSub, modP, logE, pushHook,
    emitSchedule, baseAdd, baseAddError, baseClose, streamAdd, streamAddError, streamClose,
    runQueue, runTask, drainLoop, fanLoop, subMessageHandler, subEmit, subEmitGo, deliverMsg,
    deliverData, deliverErr, deliverDone, cancelAndFulfill, subCancel, streamCancel, settle,
    forceW, okE, dataLog, World.empty, Bind.bind, Except.bind, Pure.pure, Except.pure]

/-- C2 counterexample: `close()` has no already-closed guard, so calling it
twice on a fresh base stream appends two Done messages to the outbound
buffer — the buffer contains a Done message that is not the last buffered
message's unique occurrence, contradicting "a Done message is appended at
most once ... the buffer never contains two Done messages, regardless of how
many times close is called". -/
theorem double_close_two_done_messages :
    (getS (c2Run [POp.closeOp, POp.closeOp]) 0).map (fun s => s.buffer) =
      some [Msg.done, Msg.done] ∧
    (getS (c2Run [POp.closeOp, POp.closeOp]) 0).map (fun s => countDoneMsgs s.buffer) =
      some 2 := by
  decide

/-- The world of the C2 operation-sequence runs: one base stream with a given
buffer and closed flag, no listener. -/
def c2World (b : List Msg) (cl : Bool) : World :=
  { streams := [{ tag := Tag.base, buffer := b, isClosed := cl }] }

lemma countDoneMsgs_append (a b : List Msg) :
    countDoneMsgs (a ++ b) = countDoneMsgs a + countDoneMsgs b := by
  simp [countDoneMsgs, List.countP_append]

lemma donesTrailing_append_data (b : List Msg) (v : Nat) (h : countDoneMsgs b = 0) :
    donesTrailing (b ++ [Msg.data v]) = true := by
  induction b with
  | nil => rfl
  | cons m rest ih =>
    cases m with
    | data u => exact ih (by simpa [countDoneMsgs] using h)
    | error u => exact ih (by simpa [countDoneMsgs] using h)
    | done => simp [countDoneMsgs] at h

lemma donesTrailing_append_error (b : List Msg) (e : Nat) (h : countDoneMsgs b = 0) :
    donesTrailing (b ++ [Msg.error e]) = true := by
  induction b with
  | nil => rfl
  | cons m rest ih =>
    cases m with
    | data u => exact ih (by simpa [countDoneMsgs] using h)
    | error u => exact ih (by simpa [countDoneMsgs] using h)
    | done => simp [countDoneMsgs] at h

lemma donesTrailing_append_done (b : List Msg) (h : donesTrailing b = true) :
    donesTrailing (b ++ [Msg.done]) = true := by
  induction b with
  | nil => rfl
  | cons m rest ih =>
    cases m with
    | data u => exact ih h
    | error u => exact ih h
    | done =>
      have hrest : rest.all (fun m => match m with | Msg.done => true | _ => false) = true := by
        simpa [donesTrailing] using h
      simp [donesTrailing, List.all_append, hrest]

/-- The producer-side invariant of the C2 run: the buffer accumulates one
Done per close call, Dones only trail, and the closed flag records whether a
close has happened. -/
lemma countDoneMsgs_single_data (v : Nat) : countDoneMsgs [Msg.data v] = 0 := rfl

lemma countDoneMsgs_single_error (e : Nat) : countDoneMsgs [Msg.error e] = 0 := rfl

lemma countDoneMsgs_single_done : countDoneMsgs [Msg.done] = 1 := rfl

lemma c2_inv (ops : List POp) : ∀ b, donesTrailing b = true →
    ∃ b', runOps 0 (c2World b (decide (0 < countDoneMsgs b))) ops =
        c2World b' (decide (0 < countDoneMsgs b')) ∧
      countDoneMsgs b' = countDoneMsgs b + countClose ops ∧
      donesTrailing b' = true := by
  induction ops with
  | nil =>
    intro b h1
    exact ⟨b, rfl, by rfl, h1⟩
  | cons op rest ih =>
    intro b h1
    cases op with
    | addOp v =>
      by_cases hcl : 0 < countDoneMsgs b
      · have htrue : decide (0 < countDoneMsgs b) = true := by simpa using hcl
        have step : runOps 0 (c2World b (decide (0 < countDoneMsgs b))) (POp.addOp v :: rest) =
            runOps 0 (c2World b (decide (0 < countDoneMsgs b))) rest := by
          rw [htrue]
          simp [runOps, applyOp, streamAdd, baseAdd, getS, c2World]
        rcases ih b h1 with ⟨b', hrun, hcount, htr⟩
        exact ⟨b', by rw [step, hrun], by simpa [countClose] using hcount, htr⟩
      · have h0 : countDoneMsgs b = 0 := Nat.eq_zero_of_not_pos hcl
        have hfalse : decide (0 < countDoneMsgs b) = false := by simp [h0]
        have hsame : countDoneMsgs (b ++ [Msg.data v]) = countDoneMsgs b := by
          simp [countDoneMsgs_append, countDoneMsgs_single_data]
        have step : runOps 0 (c2World b (decide (0 < countDoneMsgs b))) (POp.addOp v :: rest) =
            runOps 0 (c2World (b ++ [Msg.data v])
              (decide (0 < countDoneMsgs (b ++ [Msg.data v])))) rest := by
          rw [hsame, hfalse]
          simp [runOps, applyOp, streamAdd, baseAdd, getS, setS, emitSchedule, c2World]
        rcases ih (b ++ [Msg.data v]) (donesTrailing_append_data b v h0) with ⟨b', hrun, hcount, htr⟩
        refine ⟨b', by rw [step, hrun], ?_, htr⟩
        rw [hcount, hsame]
        simp [countClose]
    | addErrorOp e =>
      by_cases hcl : 0 < countDoneMsgs b
      · have htrue : decide (0 < countDoneMsgs b) = true := by simpa using hcl
        have step : runOps 0 (c2World b (decide (0 < countDoneMsgs b)))
              (POp.addErrorOp e :: rest) =
            runOps 0 (c2World b (decide (0 < countDoneMsgs b))) rest := by
          rw [htrue]
          simp [runOps, applyOp, streamAddError, baseAddError, getS, c2World]
        rcases ih b h1 with ⟨b', hrun, hcount, htr⟩
        exact ⟨b', by rw [step, hrun], by simpa [countClose] using hcount, htr⟩
      · have h0 : countDoneMsgs b = 0 := Nat.eq_zero_of_not_pos hcl
        have hfalse : decide (0 < countDoneMsgs b) = false := by simp [h0]
        have hsame : countDoneMsgs (b ++ [Msg.error e]) = countDoneMsgs b := by
          simp [countDoneMsgs_append, countDoneMsgs_single_error]
        have step : runOps 0 (c2World b (decide (0 < countDoneMsgs b)))
              (POp.addErrorOp e :: rest) =
            runOps 0 (c2World (b ++ [Msg.error e])
              (decide (0 < countDoneMsgs (b ++ [Msg.error e])))) rest := by
          rw [hsame, hfalse]
          simp [runOps, applyOp, streamAddError, baseAddError, getS, setS, emitSchedule, c2World]
        rcases ih (b ++ [Msg.error e]) (donesTrailing_append_error b e h0) with ⟨b', hrun, hcount, htr⟩
        refine ⟨b', by rw [step, hrun], ?_, htr⟩
        rw [hcount, hsame]
        simp [countClose]
    | closeOp =>
      have hsucc : countDoneMsgs (b ++ [Msg.done]) = countDoneMsgs b + 1 := by
        simp [countDoneMsgs_append, countDoneMsgs_single_done]
      have htrue : decide (0 < countDoneMsgs (b ++ [Msg.done])) = true := by
        simp [hsucc]
      have step : runOps 0 (c2World b (decide (0 < countDoneMsgs b))) (POp.closeOp :: rest) =
          runOps 0 (c2World (b ++ [Msg.done])
            (decide (0 < countDoneMsgs (b ++ [Msg.done])))) rest := by
        rw [htrue]
        simp [runOps, applyOp, streamClose, baseClose, getS, setS, emitSchedule, c2World]
      rcases ih (b ++ [Msg.done]) (donesTrailing_append_done b h1) with ⟨b', hrun, hcount, htr⟩
      refine ⟨b', by rw [step, hrun], ?_, htr⟩
      rw [hcount, hsucc]
      simp [countClose]
      omega

/-- C2 amended: after any sequence of producer operations on a fresh base
stream, (i) the buffer holds exactly one Done message per `close()` call (so
with at most one close call, at most one Done), (ii) every Done sits after
all Data/Error messages — no Data/Error is ever accepted after the first
close, (iii) the stream is closed exactly when some close has happened, and
(iv) once closed, every subsequent `add`/`addError` fails with the
corresponding usage error (and a throwing call leaves the stream unchanged). -/
theorem close_done_message_accounting (ops : List POp) :
    (∃ s, getS (c2Run ops) 0 = some s ∧
      countDoneMsgs s.buffer = countClose ops ∧
      donesTrailing s.buffer = true ∧
      s.isClosed = decide (0 < countClose ops)) ∧
    (∀ v e, 0 < countClose ops →
      streamAdd (c2Run ops) 0 v = Except.error Thrown.closedAdd ∧
      streamAddError (c2Run ops) 0 e = Except.error Thrown.closedAddError) := by
  have h0 : c2Run ops = runOps 0 (c2World [] (decide (0 < countDoneMsgs []))) ops := by
    simp [c2Run, newBase, newStream, World.empty, c2World, countDoneMsgs]
  rcases c2_inv ops [] rfl with ⟨b', hrun, hcount, htr⟩
  have hrun' : c2Run ops = c2World b' (decide (0 < countDoneMsgs b')) := by rw [h0, hrun]
  have hcount' : countDoneMsgs b' = countClose ops := by
    simpa [countDoneMsgs] using hcount
  constructor
  · refine ⟨{ tag := Tag.base, buffer := b', isClosed := decide (0 < countDoneMsgs b') },
      by rw [hrun']; rfl, hcount', htr, by rw [hcount']⟩
  · intro v e hpos
    have hclosed : decide (0 < countDoneMsgs b') = true := by
      rw [hcount']; simpa using hpos
    constructor
    · rw [hrun']; simp [streamAdd, baseAdd, getS, c2World, hclosed]
    · rw [hrun']; simp [streamAddError, baseAddError, getS, c2World, hclosed]

theorem close_done_message_accounting_witness :
    0 < countClose [POp.addOp 1, POp.closeOp] ∧
    streamAdd (c2Run [POp.addOp 1, POp.closeOp]) 0 5 = Except.error Thrown.closedAdd ∧
    streamAddError (c2Run [POp.addOp 1, POp.closeOp]) 0 6 =
      Except.error Thrown.closedAddError :=
  ⟨by decide, (close_done_message_accounting [POp.addOp 1, POp.closeOp]).2 5 6 (by decide)⟩

/-- The C1 observing subscription (listener plus onDone observer). -/
def c1Sub : SubState :=
  { stream := 0, onData := DataCb.obs 0, onDone := some (DoneCb.obsDone 0) }

/-- Buffering producer calls on an unobserved base stream: each `add` appends
a Data message and schedules nothing (no subscription). -/
lemma addAll_nosub (vs : List Nat) : ∀ b : List Msg,
    addAll 0 { streams := [{ tag := Tag.base, buffer := b }] } vs =
      Except.ok { streams := [{ tag := Tag.base, buffer := b ++ vs.map Msg.data }] } := by
  induction vs with
  | nil => intro b; simp [addAll]
  | cons v rest ih =>
    intro b
    have step : streamAdd { streams := [{ tag := Tag.base, buffer := b }] } 0 v =
        Except.ok { streams := [{ tag := Tag.base, buffer := b ++ [Msg.data v] }] } := by
      simp [streamAdd, baseAdd, getS, setS, emitSchedule]
    simp [addAll, step, bindE_ok, ih (b ++ [Msg.data v]), List.append_assoc]

/-- Draining a batch of Data messages to an unpaused observing subscription
appends exactly one `Ev.data` event per message, in order, and restores every
other component of the world. -/
lemma drain_obs (vs : List Nat) : ∀ (B : List Msg) (q : List Task) (log : List Ev),
    drainLoop 0 { streams := [{ tag := Tag.base, buffer := B, subscription := some 0 }],
                  subs := [c1Sub], queue := q, log := log } (vs.map Msg.data) =
      Except.ok { streams := [{ tag := Tag.base, buffer := B, subscription := some 0 }],
                  subs := [c1Sub], queue := q, log := log ++ vs.map (Ev.data 0) } := by
  induction vs with
  | nil => intro B q log; simp [drainLoop]
  | cons v rest ih =>
    intro B q log
    have step : subMessageHandler
        { streams := [{ tag := Tag.base, buffer := B, subscription := some 0 }],
          subs := [c1Sub], queue := q, log := log } 0 (Msg.data v) =
        Except.ok { streams := [{ tag := Tag.base, buffer := B, subscription := some 0 }],
                    subs := [c1Sub], queue := q, log := log ++ [Ev.data 0 v] } := by
      simp [subMessageHandler, modSub, subEmit, subEmitGo, deliverMsg, deliverData, logE,
        getS, c1Sub, bindE_ok]
    simp [drainLoop, getS, step, bindE_ok, ih B q (log ++ [Ev.data 0 v]), List.append_assoc]

lemma dataLog_map_data (vs : List Nat) (lid : Nat) :
    dataLog (vs.map (Ev.data lid)) lid = vs := by
  induction vs with
  | nil => rfl
  | cons v rest ih => simp [dataLog, List.filterMap_cons] at ih ⊢; exact ih

lemma doneCount_map_data (vs : List Nat) (lid l : Nat) :
    doneCount (vs.map (Ev.data lid)) l = 0 := by
  induction vs with
  | nil => rfl
  | cons v rest ih => simp only [List.map_cons, doneCount, List.countP_cons] at ih ⊢; simp [ih]

lemma doneCount_cons_hook (sid : Nat) (hk : HookName) (l : List Ev) (lid : Nat) :
    doneCount (Ev.hook sid hk :: l) lid = doneCount l lid := by
  simp [doneCount, List.countP_cons]

/-- C1: all `add` calls issued synchronously before any `listen` on a base
stream are buffered; the first listener then receives exactly those values,
each exactly once, in submission order, on the single deferred emit tick that
`listen` schedules (the final log is the onListen hook followed by exactly
one data event per value, in order), and the run ends quiescent. -/
theorem synchronous_adds_delivered_in_order (vs : List Nat) :
    okE (c1Run vs) = true ∧
    (forceW (c1Run vs)).log = Ev.hook 0 HookName.onListen :: vs.map (Ev.data 0) ∧
    dataLog (forceW (c1Run vs)).log 0 = vs ∧
    doneCount (forceW (c1Run vs)).log 0 = 0 ∧
    (forceW (c1Run vs)).queue = [] := by
  have hadds := addAll_nosub vs []
  have hdrain := drain_obs vs (vs.map Msg.data) [] [Ev.hook 0 HookName.onListen]
  simp only [c1Sub] at hdrain
  have hrun : c1Run vs = Except.ok
      { streams := [{ tag := Tag.base, buffer := [], subscription := some 0 }],
        subs := [c1Sub], queue := [],
        log := Ev.hook 0 HookName.onListen :: vs.map (Ev.data 0) } := by
    simp [c1Run, newBase, newStream, World.empty, hadds, hdrain, bindE_ok, streamListen,
      baseListenCore, getS, setS, modS, modSub, pushHook, emitSchedule, runQueue, runTask,
      logE, c1Sub, Bind.bind, Except.bind, Pure.pure, Except.pure]
  rw [hrun]
  refine ⟨rfl, rfl, ?_, ?_, rfl⟩
  · simp only [forceW, dataLog, List.filterMap_cons]
    simpa [dataLog] using dataLog_map_data vs 0
  · show doneCount (Ev.hook 0 HookName.onListen :: vs.map (Ev.data 0)) 0 = 0
    rw [doneCount_cons_hook]
    exact doneCount_map_data vs 0 0

lemma drainLoop_append (sid : Nat) (a b : List Msg) : ∀ w : World,
    drainLoop sid w (a ++ b) =
      (drainLoop sid w a) >>= fun w' => drainLoop sid w' b := by
  induction a with
  | nil => intro w; rfl
  | cons m rest ih =>
    intro w
    simp only [List.cons_append, drainLoop]
    cases hg : getS w sid with
    | none => simp only [hg]; exact ih w
    | some s =>
      simp only [hg]
      cases hsub : s.subscription with
      | none => simp only [hsub]; exact ih w
      | some subId =>
        simp only [hsub]
        cases hmh : subMessageHandler w subId m with
        | error t => simp [hmh, bindE_error]
        | ok w' => simp [hmh, bindE_ok, ih w']

/-- The subscription created by `Stream.every`. -/
def c6Sub (c : Nat → PredR) : SubState :=
  { stream := 0, onData := DataCb.everyData 0 c,
    onError := some (ErrCb.rejectWith 0), onDone := some (DoneCb.everyDone 0) }

/-- Draining Data messages that all satisfy the `every` predicate leaves the
world unchanged (the handler returns without observable effect). -/
lemma drain_every_pass (c : Nat → PredR) (goods : List Nat)
    (hg : ∀ v ∈ goods, c v = PredR.ret true) :
    ∀ (B : List Msg) (cl : Bool) (P : List PromiseState) (q : List Task) (log : List Ev),
    drainLoop 0 { streams := [{ tag := Tag.base, buffer := B, subscription := some 0,
                                isClosed := cl }],
                  subs := [c6Sub c], promises := P, queue := q, log := log }
        (goods.map Msg.data) =
      Except.ok { streams := [{ tag := Tag.base, buffer := B, subscription := some 0,
                                isClosed := cl }],
                  subs := [c6Sub c], promises := P, queue := q, log := log } := by
  induction goods with
  | nil => intro B cl P q log; rfl
  | cons v rest ih =>
    intro B cl P q log
    have hv : c v = PredR.ret true := hg v (by simp)
    have hrest : ∀ u ∈ rest, c u = PredR.ret true := fun u hu => hg u (by simp [hu])
    have step : subMessageHandler
        { streams := [{ tag := Tag.base, buffer := B, subscription := some 0, isClosed := cl }],
          subs := [c6Sub c], promises := P, queue := q, log := log } 0 (Msg.data v) =
        Except.ok { streams := [{ tag := Tag.base, buffer := B, subscription := some 0,
                                  isClosed := cl }],
                    subs := [c6Sub c], promises := P, queue := q, log := log } := by
      simp [subMessageHandler, modSub, subEmit, subEmitGo, deliverMsg, deliverData,
        getS, c6Sub, hv, bindE_ok]
    simp only [List.map_cons]
    unfold drainLoop
    simp [getS, step, bindE_ok, ih hrest B cl P q log]

/-- Draining is a no-op on the `every` world once the subscription has been
cancelled (remaining buffered messages are skipped). -/
lemma drain_skip_every (c : Nat → PredR) (msgs : List Msg)
    (B : List Msg) (cl : Bool) (P : List PromiseState) (q : List Task) (log : List Ev) :
    drainLoop 0 { streams := [{ tag := Tag.base, buffer := B, subscription := none,
                                isClosed := cl }],
                  subs := [c6Sub c], promises := P, queue := q, log := log } msgs =
      Except.ok { streams := [{ tag := Tag.base, buffer := B, subscription := none,
                                isClosed := cl }],
                  subs := [c6Sub c], promises := P, queue := q, log := log } := by
  apply drainLoop_no_sub
  intro s hs
  simp [getS] at hs
  rw [← hs]

/-- Evaluation of the C6 all-pass run: every value satisfies the predicate
and the stream closes, so the promise resolves `true` at the Done message and
the stream then cancels the subscription. -/
lemma c6a_eval (c : Nat → PredR) (goods : List Nat)
    (hg : ∀ v ∈ goods, c v = PredR.ret true) :
    c6Run c goods [POp.closeOp] = Except.ok
      { streams := [{ tag := Tag.base, buffer := [], subscription := none, isClosed := true }],
        subs := [c6Sub c],
        promises := [{ settled := some (SettleR.resBool true) }], queue := [],
        log := [Ev.hook 0 HookName.onListen, Ev.settle 0 (SettleR.resBool true),
                Ev.cancelSub 0, Ev.hook 0 HookName.onCancel] } := by
  have hadds := addAll_nosub goods []
  have hpass := drain_every_pass c goods hg
  simp only [c6Sub] at hpass
  simp [c6Run, newBase, newStream, World.empty, hadds, runOps, applyOp, streamClose, baseClose,
    getS, setS, modS, modSub, modP, emitSchedule, everyP, newPromise, streamListen,
    baseListenCore, pushHook, runQueue, runTask, drainLoop_append, hpass, drainLoop,
    subMessageHandler, subEmit, subEmitGo, deliverMsg, deliverData, deliverDone, settle, logE,
    streamCancel, subCancel, cancelAndFulfill, c6Sub, bindE_ok, Bind.bind, Except.bind,
    Pure.pure, Except.pure]

/-- Evaluation of the C6 failing-value run: after a good prefix, the first
value on which the predicate is false or throws makes `every` cancel the
subscription and then reject the promise with `false`; the remaining
buffered values are never examined. -/
lemma c6b_eval (c : Nat → PredR) (goods rest : List Nat) (bad : Nat)
    (hg : ∀ v ∈ goods, c v = PredR.ret true)
    (hbad : c bad = PredR.ret false ∨ ∃ t, c bad = PredR.thrown t) :
    c6Run c (goods ++ bad :: rest) [] = Except.ok
      { streams := [{ tag := Tag.base, buffer := [], subscription := none, isClosed := false }],
        subs := [c6Sub c],
        promises := [{ settled := some (SettleR.rejBool false) }], queue := [],
        log := [Ev.hook 0 HookName.onListen, Ev.cancelSub 0,
                Ev.settle 0 (SettleR.rejBool false), Ev.hook 0 HookName.onCancel] } := by
  have hadds := addAll_nosub (goods ++ bad :: rest) []
  have hpass := drain_every_pass c goods hg
  simp only [c6Sub] at hpass
  have hskip := drain_skip_every c (rest.map Msg.data)
  simp only [c6Sub] at hskip
  rcases hbad with hb | ⟨t, hb⟩ <;>
  simp [c6Run, newBase, newStream, World.empty, hadds, runOps, applyOp,
    getS, setS, modS, modSub, modP, emitSchedule, everyP, newPromise, streamListen,
    baseListenCore, pushHook, runQueue, runTask, drainLoop_append, hpass, hskip, drainLoop,
    subMessageHandler, subEmit, subEmitGo, deliverMsg, deliverData, deliverDone, settle, logE,
    streamCancel, subCancel, cancelAndFulfill, c6Sub, hb, bindE_ok, Bind.bind, Except.bind,
    Pure.pure, Except.pure, List.map_append]

/-- Evaluation of the C6 upstream-error run: after a good prefix, an error on
the stream makes `every` cancel the subscription and then reject the promise
with that error. -/
lemma c6c_eval (c : Nat → PredR) (goods : List Nat) (e : Nat)
    (hg : ∀ v ∈ goods, c v = PredR.ret true) :
    c6Run c goods [POp.addErrorOp e] = Except.ok
      { streams := [{ tag := Tag.base, buffer := [], subscription := none, isClosed := false }],
        subs := [c6Sub c],
        promises := [{ settled := some (SettleR.rejNat e) }], queue := [],
        log := [Ev.hook 0 HookName.onListen, Ev.cancelSub 0,
                Ev.settle 0 (SettleR.rejNat e), Ev.hook 0 HookName.onCancel] } := by
  have hadds := addAll_nosub goods []
  have hpass := drain_every_pass c goods hg
  simp only [c6Sub] at hpass
  simp [c6Run, newBase, newStream, World.empty, hadds, runOps, applyOp, streamAddError,
    baseAddError, getS, setS, modS, modSub, modP, emitSchedule, everyP, newPromise,
    streamListen, baseListenCore, pushHook, runQueue, runTask, drainLoop_append, hpass,
    drainLoop, subMessageHandler, subEmit, subEmitGo, deliverMsg, deliverData, deliverErr,
    deliverDone, settle, logE, streamCancel, subCancel, cancelAndFulfill, c6Sub, bindE_ok,
    Bind.bind, Except.bind, Pure.pure, Except.pure]

/-- C6 counterexample: on a value for which the predicate is false, `every`'s
promise is REJECTED with `false` (the data handler passes `reject` to
`cancelAndFulfill`), not resolved with `false` — matching the method's own
doc comment "Rejects otherwise" and the repo's tests, and contradicting the
claim's "resolves with false". -/
theorem every_rejects_with_false :
    promiseResult (forceW (c6Run (fun v => PredR.ret (decide (v = 2))) [1] [])) 0 =
      some (SettleR.rejBool false) ∧
    promiseResult (forceW (c6Run (fun v => PredR.ret (decide (v = 2))) [1] [])) 0 ≠
      some (SettleR.resBool false) := by
  decide

/-- C6 amended: for every stream of buffered values and every predicate,
`every(pred)` resolves `true` when Done arrives with the predicate having
held for every delivered value; on the first value for which the predicate
returns false or throws it cancels the subscription and then REJECTS the
promise with `false` (remaining values are never examined); on an upstream
error it cancels and rejects with that error. -/
theorem every_behaviour (c : Nat → PredR) (goods rest : List Nat) (bad e : Nat)
    (hg : ∀ v ∈ goods, c v = PredR.ret true)
    (hbad : c bad = PredR.ret false ∨ ∃ t, c bad = PredR.thrown t) :
    (okE (c6Run c goods [POp.closeOp]) = true ∧
      promiseResult (forceW (c6Run c goods [POp.closeOp])) 0 =
        some (SettleR.resBool true)) ∧
    (okE (c6Run c (goods ++ bad :: rest) []) = true ∧
      (forceW (c6Run c (goods ++ bad :: rest) [])).log =
        [Ev.hook 0 HookName.onListen, Ev.cancelSub 0,
         Ev.settle 0 (SettleR.rejBool false), Ev.hook 0 HookName.onCancel] ∧
      promiseResult (forceW (c6Run c (goods ++ bad :: rest) [])) 0 =
        some (SettleR.rejBool false)) ∧
    (okE (c6Run c goods [POp.addErrorOp e]) = true ∧
      (forceW (c6Run c goods [POp.addErrorOp e])).log =
        [Ev.hook 0 HookName.onListen, Ev.cancelSub 0,
         Ev.settle 0 (SettleR.rejNat e), Ev.hook 0 HookName.onCancel] ∧
      promiseResult (forceW (c6Run c goods [POp.addErrorOp e])) 0 =
        some (SettleR.rejNat e)) := by
  have ha := c6a_eval c goods hg
  have hb := c6b_eval c goods rest bad hg hbad
  have hc := c6c_eval c goods e hg
  refine ⟨⟨?_, ?_⟩, ⟨?_, ?_, ?_⟩, ⟨?_, ?_, ?_⟩⟩ <;>
    simp [ha, hb, hc, okE, forceW, promiseResult]

theorem every_behaviour_witness :
    (∀ v ∈ [2, 4], PredR.ret (decide (v % 2 = 0)) = PredR.ret true) ∧
    promiseResult
        (forceW (c6Run (fun v => PredR.ret (decide (v % 2 = 0))) ([2, 4] ++ 1 :: [6]) [])) 0 =
      some (SettleR.rejBool false) :=
  ⟨by decide,
    ((every_behaviour (fun v => PredR.ret (decide (v % 2 = 0))) [2, 4] [6] 1 9
      (by decide) (Or.inl rfl)).2.1).2.2⟩

lemma runQueue_cons (f : Nat) (w : World) (t : Task) (rest : List Task)
    (hq : w.queue = t :: rest) :
    runQueue (f + 1) w = (runTask { w with queue := rest } t) >>= runQueue f := by
  simp [runQueue, hq]

/-- Extra fuel is harmless once a run reaches quiescence. -/
lemma runQueue_mono (f : Nat) : ∀ (g : Nat) (w w' : World),
    runQueue f w = Except.ok w' → w'.queue = [] →
    runQueue (g + f) w = Except.ok w' := by
  induction f with
  | zero =>
    intro g w w' hrun hq
    have hww : w = w' := by injection hrun
    subst hww
    exact runQueue_empty g w hq
  | succ f ih =>
    intro g w w' hrun hq
    cases hql : w.queue with
    | nil =>
      rw [runQueue_empty (f + 1) w hql] at hrun
      have hww : w = w' := by injection hrun
      subst hww
      exact runQueue_empty (g + (f + 1)) w hq
    | cons t rest =>
      rw [runQueue_cons f w t rest hql] at hrun
      have hgf : g + (f + 1) = (g + f) + 1 := by omega
      rw [hgf, runQueue_cons (g + f) w t rest hql]
      cases hrt : runTask { w with queue := rest } t with
      | error u =>
        rw [hrt] at hrun
        simp [bindE_error] at hrun
      | ok w1 =>
        rw [hrt] at hrun
        simp only [bindE_ok] at hrun ⊢
        exact ih g w1 w' hrun hq

/-- The parent-wiring subscription created by the take stream's `listen`. -/
def c3SubP : SubState :=
  { stream := 0, onData := DataCb.addTo 1,
    onError := some (ErrCb.addErrorTo 1), onDone := some (DoneCb.closeOf 1) }

/-- The external observing subscription on the take stream. -/
def c3SubT : SubState :=
  { stream := 1, onData := DataCb.obs 0, onDone := some (DoneCb.obsDone 0) }

/-- The C3 world: stream 0 is the base parent, stream 1 the `take(n)` stream. -/
def c3W (bs : List Msg) (sS : Option Nat) (k n : Nat) (bt : List Msg) (cl : Bool)
    (ps sT : Option Nat) (q : List Task) (log : List Ev) : World :=
  { streams := [{ tag := Tag.base, buffer := bs, subscription := sS },
                { tag := Tag.takeT, parent := some 0, takeAmount := n, taken := k,
                  buffer := bt, subscription := sT, parentSub := ps, isClosed := cl }],
    subs := [c3SubP, c3SubT], queue := q, log := log }

/-- Synchronous `add`s on the listened-to parent: each buffers one Data
message and schedules one emit tick. -/
lemma c3_addAll (vs : List Nat) : ∀ (bs : List Msg) (k n : Nat) (bt : List Msg) (cl : Bool)
    (ps sT : Option Nat) (q : List Task) (log : List Ev),
    addAll 0 (c3W bs (some 0) k n bt cl ps sT q log) vs =
      Except.ok (c3W (bs ++ vs.map Msg.data) (some 0) k n bt cl ps sT
        (q ++ List.replicate vs.length (Task.emitT 0)) log) := by
  induction vs with
  | nil => intro bs k n bt cl ps sT q log; simp [addAll]
  | cons v rest ih =>
    intro bs k n bt cl ps sT q log
    have step : streamAdd (c3W bs (some 0) k n bt cl ps sT q log) 0 v =
        Except.ok (c3W (bs ++ [Msg.data v]) (some 0) k n bt cl ps sT
          (q ++ [Task.emitT 0]) log) := by
      simp [streamAdd, baseAdd, getS, setS, emitSchedule, c3W]
    simp only [addAll, step, bindE_ok, ih (bs ++ [Msg.data v]) k n bt cl ps sT
      (q ++ [Task.emitT 0]) log]
    simp [List.append_assoc, List.replicate_succ]

/-- Draining parent Data messages into the take stream while strictly under
the take limit: each message is republished into the take stream's buffer,
the taken counter advances and one emit tick for the take stream is
scheduled per message. -/
lemma c3_drain_under (n : Nat) (vs : List Nat) : ∀ (k : Nat) (bs bt : List Msg)
    (q : List Task) (log : List Ev), k + vs.length < n →
    drainLoop 0 (c3W bs (some 0) k n bt false (some 0) (some 1) q log) (vs.map Msg.data) =
      Except.ok (c3W bs (some 0) (k + vs.length) n (bt ++ vs.map Msg.data) false (some 0)
        (some 1) (q ++ List.replicate vs.length (Task.emitT 1)) log) := by
  induction vs with
  | nil => intro k bs bt q log _; simp [drainLoop, c3W]
  | cons v rest ih =>
    intro k bs bt q log hlt
    have hk : k < n := by simp at hlt; omega
    have hk2 : ¬ (n ≤ k + 1) := by simp at hlt; omega
    have step : subMessageHandler (c3W bs (some 0) k n bt false (some 0) (some 1) q log)
        0 (Msg.data v) =
        Except.ok (c3W bs (some 0) (k + 1) n (bt ++ [Msg.data v]) false (some 0) (some 1)
          (q ++ [Task.emitT 1]) log) := by
      simp [subMessageHandler, modSub, subEmit, subEmitGo, deliverMsg, deliverData,
        streamAdd, baseAdd, getS, setS, modS, emitSchedule, streamClose, c3W, c3SubP, c3SubT,
        hk, hk2, bindE_ok, Bind.bind, Except.bind, Pure.pure, Except.pure]
    have hrest : (k + 1) + rest.length < n := by simp at hlt; omega
    have ih' := ih (k + 1) bs (bt ++ [Msg.data v]) (q ++ [Task.emitT 1]) log hrest
    simp only [List.map_cons]
    unfold drainLoop
    simp only [c3W] at step ih' ⊢
    simp [step, bindE_ok, ih', getS, List.append_assoc, List.replicate_succ,
      Nat.add_assoc, Nat.add_comm, Nat.add_left_comm]

/-- Fuel composes: running `f + g` queue steps equals running `f`, then `g`. -/
lemma runQueue_add (f g : Nat) : ∀ w : World,
    runQueue (f + g) w = (runQueue f w) >>= runQueue g := by
  induction f with
  | zero =>
    intro w
    have h0 : (0 : Nat) + g = g := by omega
    rw [h0]
    rfl
  | succ f ih =>
    intro w
    have hs : (f + 1) + g = (f + g) + 1 := by omega
    rw [hs]
    cases hql : w.queue with
    | nil =>
      rw [runQueue_empty ((f + g) + 1) w hql, runQueue_empty (f + 1) w hql]
      simp only [bindE_ok]
      exact (runQueue_empty g w hql).symm
    | cons t rest =>
      rw [runQueue_cons (f + g) w t rest hql, runQueue_cons f w t rest hql]
      cases hrt : runTask { w with queue := rest } t with
      | error u => simp [bindE_error]
      | ok w1 => simp only [bindE_ok]; exact ih w1

/-- Once the parent's subscription is cancelled, draining skips every
remaining message. -/
lemma c3_drain_skip (msgs : List Msg) (bs : List Msg) (k n : Nat) (bt : List Msg)
    (cl : Bool) (ps sT : Option Nat) (q : List Task) (log : List Ev) :
    drainLoop 0 (c3W bs none k n bt cl ps sT q log) msgs =
      Except.ok (c3W bs none k n bt cl ps sT q log) := by
  apply drainLoop_no_sub
  intro s hs
  simp [getS, c3W] at hs
  rw [← hs]

/-- The message that brings the take counter to its limit: it is republished,
then the take stream closes — cancelling the parent subscription (so the
remaining messages are skipped) and buffering its own Done. -/
lemma c3_drain_close (n v : Nat) (rest : List Nat) (k : Nat) (bs bt : List Msg)
    (q : List Task) (log : List Ev) (hk1 : k + 1 = n) :
    drainLoop 0 (c3W bs (some 0) k n bt false (some 0) (some 1) q log)
        ((v :: rest).map Msg.data) =
      Except.ok (c3W bs none (k + 1) n (bt ++ [Msg.data v, Msg.done]) true none (some 1)
        (q ++ [Task.emitT 1, Task.hookT 0 HookName.onCancel, Task.emitT 1])
        (log ++ [Ev.cancelSub 0])) := by
  have hk : k < n := by omega
  have htake : n ≤ k + 1 := by omega
  have step : subMessageHandler (c3W bs (some 0) k n bt false (some 0) (some 1) q log)
      0 (Msg.data v) =
      Except.ok (c3W bs none (k + 1) n (bt ++ [Msg.data v, Msg.done]) true none (some 1)
        (q ++ [Task.emitT 1, Task.hookT 0 HookName.onCancel, Task.emitT 1])
        (log ++ [Ev.cancelSub 0])) := by
    simp only [c3W]
    simp [subMessageHandler, modSub, subEmit, subEmitGo, deliverMsg, deliverData,
      streamAdd, baseAdd, baseClose, getS, setS, modS, emitSchedule, streamClose,
      streamCancel, subCancel, pushHook, logE, c3SubP, c3SubT, hk, htake, bindE_ok,
      Bind.bind, Except.bind, Pure.pure, Except.pure, List.append_assoc]
  have hskip := c3_drain_skip (rest.map Msg.data) bs (k + 1) n
    (bt ++ [Msg.data v, Msg.done]) true none (some 1)
    (q ++ [Task.emitT 1, Task.hookT 0 HookName.onCancel, Task.emitT 1])
    (log ++ [Ev.cancelSub 0])
  simp only [List.map_cons]
  unfold drainLoop
  simp only [c3W] at step hskip ⊢
  simp [step, hskip, bindE_ok, getS]

/-- Draining buffered Data messages of the (closed) take stream to its
observing listener logs one data event per value, in order. -/
lemma c3_drain_T_obs (ws : List Nat) : ∀ (bs : List Msg) (k n : Nat) (BT : List Msg)
    (ps : Option Nat) (q : List Task) (log : List Ev),
    drainLoop 1 (c3W bs none k n BT true ps (some 1) q log) (ws.map Msg.data) =
      Except.ok (c3W bs none k n BT true ps (some 1) q (log ++ ws.map (Ev.data 0))) := by
  induction ws with
  | nil => intro bs k n BT ps q log; simp [drainLoop, c3W]
  | cons v rest ih =>
    intro bs k n BT ps q log
    have step : subMessageHandler (c3W bs none k n BT true ps (some 1) q log) 1
        (Msg.data v) =
        Except.ok (c3W bs none k n BT true ps (some 1) q (log ++ [Ev.data 0 v])) := by
      simp only [c3W]
      simp [subMessageHandler, modSub, subEmit, subEmitGo, deliverMsg, deliverData, logE,
        getS, c3SubP, c3SubT, bindE_ok]
    have ih' := ih bs k n BT ps q (log ++ [Ev.data 0 v])
    simp only [List.map_cons]
    unfold drainLoop
    simp only [c3W] at step ih' ⊢
    simp [step, ih', bindE_ok, getS, List.append_assoc]

/-- Emit ticks scheduled for the parent while it still had a subscription are
no-ops once the buffer has been cleared and the subscription cancelled:
running exactly one queue step per such task just pops it. -/
lemma c3_noop_e0 (m : Nat) : ∀ (k n : Nat) (BT : List Msg) (cl : Bool) (sT : Option Nat)
    (q : List Task) (log : List Ev),
    runQueue m (c3W [] none k n BT cl none sT (List.replicate m (Task.emitT 0) ++ q) log) =
      Except.ok (c3W [] none k n BT cl none sT q log) := by
  induction m with
  | zero => intro k n BT cl sT q log; rfl
  | succ m ih =>
    intro k n BT cl sT q log
    have hq : (c3W [] none k n BT cl none sT
        (List.replicate (m + 1) (Task.emitT 0) ++ q) log).queue =
        Task.emitT 0 :: (List.replicate m (Task.emitT 0) ++ q) := by
      simp [c3W, List.replicate_succ]
    rw [runQueue_cons m _ _ _ hq]
    have htask : runTask { c3W [] none k n BT cl none sT
        (List.replicate (m + 1) (Task.emitT 0) ++ q) log with
          queue := List.replicate m (Task.emitT 0) ++ q } (Task.emitT 0) =
        Except.ok (c3W [] none k n BT cl none sT
          (List.replicate m (Task.emitT 0) ++ q) log) := by
      simp only [c3W]
      simp [runTask, getS, drainLoop, modS, setS, bindE_ok, Bind.bind, Except.bind,
        Pure.pure, Except.pure]
    rw [htask]
    simp only [bindE_ok]
    exact ih k n BT cl sT q log

/-- Emit ticks for the take stream are no-ops once its buffer is empty and it
has no subscription. -/
lemma c3_noop_e1 (m : Nat) : ∀ (k n : Nat) (cl : Bool) (q : List Task) (log : List Ev),
    runQueue m (c3W [] none k n [] cl none none (List.replicate m (Task.emitT 1) ++ q) log) =
      Except.ok (c3W [] none k n [] cl none none q log) := by
  induction m with
  | zero => intro k n cl q log; rfl
  | succ m ih =>
    intro k n cl q log
    have hq : (c3W [] none k n [] cl none none
        (List.replicate (m + 1) (Task.emitT 1) ++ q) log).queue =
        Task.emitT 1 :: (List.replicate m (Task.emitT 1) ++ q) := by
      simp [c3W, List.replicate_succ]
    rw [runQueue_cons m _ _ _ hq]
    have htask : runTask { c3W [] none k n [] cl none none
        (List.replicate (m + 1) (Task.emitT 1) ++ q) log with
          queue := List.replicate m (Task.emitT 1) ++ q } (Task.emitT 1) =
        Except.ok (c3W [] none k n [] cl none none
          (List.replicate m (Task.emitT 1) ++ q) log) := by
      simp only [c3W]
      simp [runTask, getS, drainLoop, modS, setS, bindE_ok, Bind.bind, Except.bind,
        Pure.pure, Except.pure]
    rw [htask]
    simp only [bindE_ok]
    exact ih k n cl q log

/-- Full evaluation of the C3 scenario: with `1 ≤ n < |vs|`, the take-stream
listener sees exactly the first `n` values then Done; the parent subscription
is cancelled mid-drain (`Ev.cancelSub 0`) so the remaining parent values are
never delivered, and the run ends quiescent. -/
lemma c3_eval (n : Nat) (vs : List Nat) (h1 : 1 ≤ n) (h2 : n < vs.length) :
    c3Run n vs = Except.ok (c3W [] none n n [] true none none []
      ([Ev.hook 0 HookName.onListen, Ev.cancelSub 0, Ev.hook 1 HookName.onListen] ++
        (vs.take n).map (Ev.data 0) ++
        [Ev.done 0, Ev.cancelSub 1, Ev.hook 0 HookName.onCancel,
         Ev.hook 1 HookName.onCancel])) := by
  have hidx : n - 1 < vs.length := by omega
  have hn1 : (n - 1) + 1 = n := by omega
  have hlen : (vs.take (n - 1)).length = n - 1 := by
    simp [List.length_take]; omega
  have htaken : vs.take n = vs.take (n - 1) ++ [vs.get ⟨n - 1, hidx⟩] := by
    conv_lhs => rw [← hn1, List.take_succ]
    simp [List.getElem?_eq_getElem hidx]
  have hdecomp : vs.map Msg.data =
      (vs.take (n - 1)).map Msg.data ++
        ((vs.get ⟨n - 1, hidx⟩ :: vs.drop n).map Msg.data) := by
    rw [← List.map_append]
    congr 1
    conv_lhs => rw [← List.take_append_drop (n - 1) vs]
    congr 1
    rw [List.drop_eq_getElem_cons hidx, hn1]
    rfl
  have hidx2 : n - 1 < (vs.map Msg.data).length := by
    simpa using hidx
  have hbufeq : (vs.map Msg.data).take (n - 1) ++ [Msg.data (vs.get ⟨n - 1, hidx⟩), Msg.done] =
      (vs.map Msg.data).take n ++ [Msg.done] := by
    conv_rhs => rw [← hn1, List.take_succ]
    simp [List.getElem?_eq_getElem hidx2, List.append_assoc]
  -- the drain of the parent's full buffer during the first emit tick
  have hdrainAll : ∀ bs : List Msg,
      drainLoop 0 (c3W bs (some 0) 0 n [] false (some 0) (some 1)
          (Task.hookT 1 HookName.onListen :: Task.emitT 1 ::
            List.replicate vs.length (Task.emitT 0))
          [Ev.hook 0 HookName.onListen]) (vs.map Msg.data) =
        Except.ok (c3W bs none n n ((vs.map Msg.data).take n ++ [Msg.done]) true none (some 1)
          (Task.hookT 1 HookName.onListen :: Task.emitT 1 ::
            (List.replicate vs.length (Task.emitT 0) ++
              (List.replicate (n - 1) (Task.emitT 1) ++
                [Task.emitT 1, Task.hookT 0 HookName.onCancel, Task.emitT 1])))
          [Ev.hook 0 HookName.onListen, Ev.cancelSub 0]) := by
    intro bs
    conv_lhs => rw [hdecomp]
    rw [drainLoop_append]
    have hu : 0 + (vs.take (n - 1)).length < n := by rw [hlen]; omega
    rw [c3_drain_under n (vs.take (n - 1)) 0 bs []
      (Task.hookT 1 HookName.onListen :: Task.emitT 1 ::
        List.replicate vs.length (Task.emitT 0)) [Ev.hook 0 HookName.onListen] hu]
    simp only [bindE_ok, hlen, Nat.zero_add, List.nil_append]
    rw [c3_drain_close n (vs.get ⟨n - 1, hidx⟩) (vs.drop n) (n - 1) bs
      ((vs.take (n - 1)).map Msg.data)
      ((Task.hookT 1 HookName.onListen :: Task.emitT 1 ::
        List.replicate vs.length (Task.emitT 0)) ++ List.replicate (n - 1) (Task.emitT 1))
      [Ev.hook 0 HookName.onListen] hn1]
    rw [hn1]
    simp only [List.map_take, List.get_eq_getElem] at hbufeq ⊢
    simp [hbufeq, List.append_assoc]
  -- the drain of the take stream's buffer during its emit tick
  have hTdrain : ∀ (q : List Task) (log : List Ev),
      drainLoop 1 (c3W [] none n n ((vs.map Msg.data).take n ++ [Msg.done]) true none (some 1)
          q log) ((vs.map Msg.data).take n ++ [Msg.done]) =
        Except.ok (c3W [] none n n ((vs.map Msg.data).take n ++ [Msg.done]) true none (some 1)
          q (log ++ (vs.map (Ev.data 0)).take n ++ [Ev.done 0])) := by
    intro q log
    rw [drainLoop_append]
    have hobs := c3_drain_T_obs (vs.take n) [] n n ((vs.map Msg.data).take n ++ [Msg.done])
      none q log
    simp only [List.map_take] at hobs
    rw [hobs]
    simp only [bindE_ok]
    have hdone : drainLoop 1 (c3W [] none n n ((vs.map Msg.data).take n ++ [Msg.done]) true
        none (some 1) q (log ++ (vs.map (Ev.data 0)).take n)) [Msg.done] =
        Except.ok (c3W [] none n n ((vs.map Msg.data).take n ++ [Msg.done]) true none (some 1)
          q ((log ++ (vs.map (Ev.data 0)).take n) ++ [Ev.done 0])) := by
      simp only [c3W]
      simp [drainLoop, subMessageHandler, modSub, subEmit, subEmitGo, deliverMsg, deliverDone,
        logE, getS, c3SubP, c3SubT, bindE_ok, Bind.bind, Except.bind, Pure.pure, Except.pure]
    exact hdone
  -- the first four queue steps: both onListen hooks and both emit drains
  have hdA := hdrainAll (vs.map Msg.data)
  have hT := hTdrain
    (List.replicate vs.length (Task.emitT 0) ++
      (List.replicate (n - 1) (Task.emitT 1) ++
        [Task.emitT 1, Task.hookT 0 HookName.onCancel, Task.emitT 1]))
    [Ev.hook 0 HookName.onListen, Ev.cancelSub 0, Ev.hook 1 HookName.onListen]
  have hfour : runQueue 4 (c3W (vs.map Msg.data) (some 0) 0 n [] false (some 0) (some 1)
      (Task.hookT 0 HookName.onListen :: Task.emitT 0 :: Task.hookT 1 HookName.onListen ::
        Task.emitT 1 :: List.replicate vs.length (Task.emitT 0)) []) =
      Except.ok (c3W [] none n n [] true none none
        (List.replicate vs.length (Task.emitT 0) ++
          (List.replicate (n - 1) (Task.emitT 1) ++
            [Task.emitT 1, Task.hookT 0 HookName.onCancel, Task.emitT 1,
             Task.hookT 1 HookName.onCancel]))
        ([Ev.hook 0 HookName.onListen, Ev.cancelSub 0, Ev.hook 1 HookName.onListen] ++
          (vs.map (Ev.data 0)).take n ++ [Ev.done 0, Ev.cancelSub 1])) := by
    simp only [c3W, c3SubP, c3SubT] at hdA hT ⊢
    simp [runQueue, runTask, getS, setS, modS, modSub, logE, streamCancel, subCancel,
      pushHook, hdA, hT, bindE_ok, Bind.bind, Except.bind, Pure.pure, Except.pure,
      List.append_assoc]
  have hnoop0 := c3_noop_e0 vs.length n n [] true none
    (List.replicate (n - 1) (Task.emitT 1) ++
      [Task.emitT 1, Task.hookT 0 HookName.onCancel, Task.emitT 1,
       Task.hookT 1 HookName.onCancel])
    ([Ev.hook 0 HookName.onListen, Ev.cancelSub 0, Ev.hook 1 HookName.onListen] ++
      (vs.map (Ev.data 0)).take n ++ [Ev.done 0, Ev.cancelSub 1])
  have hnoop1 := c3_noop_e1 (n - 1) n n true
    [Task.emitT 1, Task.hookT 0 HookName.onCancel, Task.emitT 1,
     Task.hookT 1 HookName.onCancel]
    ([Ev.hook 0 HookName.onListen, Ev.cancelSub 0, Ev.hook 1 HookName.onListen] ++
      (vs.map (Ev.data 0)).take n ++ [Ev.done 0, Ev.cancelSub 1])
  have hlast : runQueue 4 (c3W [] none n n [] true none none
      [Task.emitT 1, Task.hookT 0 HookName.onCancel, Task.emitT 1,
       Task.hookT 1 HookName.onCancel]
      ([Ev.hook 0 HookName.onListen, Ev.cancelSub 0, Ev.hook 1 HookName.onListen] ++
        (vs.map (Ev.data 0)).take n ++ [Ev.done 0, Ev.cancelSub 1])) =
      Except.ok (c3W [] none n n [] true none none []
        ([Ev.hook 0 HookName.onListen, Ev.cancelSub 0, Ev.hook 1 HookName.onListen] ++
          (vs.map (Ev.data 0)).take n ++
          [Ev.done 0, Ev.cancelSub 1, Ev.hook 0 HookName.onCancel,
           Ev.hook 1 HookName.onCancel])) := by
    simp only [c3W, c3SubP, c3SubT]
    simp [runQueue, runTask, getS, setS, modS, modSub, logE, drainLoop, streamCancel,
      subCancel, pushHook, bindE_ok, Bind.bind, Except.bind, Pure.pure, Except.pure,
      List.append_assoc]
  have hT4 : runQueue (4 + (vs.length + ((n - 1) + 4)))
      (c3W (vs.map Msg.data) (some 0) 0 n [] false (some 0) (some 1)
        (Task.hookT 0 HookName.onListen :: Task.emitT 0 :: Task.hookT 1 HookName.onListen ::
          Task.emitT 1 :: List.replicate vs.length (Task.emitT 0)) []) =
      Except.ok (c3W [] none n n [] true none none []
        ([Ev.hook 0 HookName.onListen, Ev.cancelSub 0, Ev.hook 1 HookName.onListen] ++
          (vs.map (Ev.data 0)).take n ++
          [Ev.done 0, Ev.cancelSub 1, Ev.hook 0 HookName.onCancel,
           Ev.hook 1 HookName.onCancel])) := by
    rw [runQueue_add 4 (vs.length + ((n - 1) + 4)), hfour]
    simp only [bindE_ok]
    rw [runQueue_add vs.length ((n - 1) + 4), hnoop0]
    simp only [bindE_ok]
    rw [runQueue_add (n - 1) 4, hnoop1]
    simp only [bindE_ok]
    exact hlast
  have hfull : runQueue (2 * vs.length + 12)
      (c3W (vs.map Msg.data) (some 0) 0 n [] false (some 0) (some 1)
        (Task.hookT 0 HookName.onListen :: Task.emitT 0 :: Task.hookT 1 HookName.onListen ::
          Task.emitT 1 :: List.replicate vs.length (Task.emitT 0)) []) =
      Except.ok (c3W [] none n n [] true none none []
        ([Ev.hook 0 HookName.onListen, Ev.cancelSub 0, Ev.hook 1 HookName.onListen] ++
          (vs.map (Ev.data 0)).take n ++
          [Ev.done 0, Ev.cancelSub 1, Ev.hook 0 HookName.onCancel,
           Ev.hook 1 HookName.onCancel])) := by
    have hsplit : 2 * vs.length + 12 =
        (vs.length - n + 5) + (4 + (vs.length + ((n - 1) + 4))) := by omega
    rw [hsplit]
    exact runQueue_mono (4 + (vs.length + ((n - 1) + 4))) (vs.length - n + 5) _ _ hT4 rfl
  have hsetup : streamListen 3 { streams := [{ tag := Tag.base },
      { tag := Tag.takeT, parent := some 0, takeAmount := n }] } 1
      (DataCb.obs 0) none (some (DoneCb.obsDone 0)) false =
      Except.ok (1, c3W [] (some 0) 0 n [] false (some 0) (some 1)
        [Task.hookT 0 HookName.onListen, Task.emitT 0, Task.hookT 1 HookName.onListen,
         Task.emitT 1] []) := by
    simp only [c3W, c3SubP, c3SubT]
    simp [streamListen, baseListenCore, getS, setS, modS, pushHook, emitSchedule,
      bindE_ok, Bind.bind, Except.bind, Pure.pure, Except.pure]
  have haddAll := c3_addAll vs [] 0 n [] false (some 0) (some 1)
    [Task.hookT 0 HookName.onListen, Task.emitT 0, Task.hookT 1 HookName.onListen,
     Task.emitT 1] []
  simp only [c3W, List.cons_append, List.nil_append] at hsetup haddAll hfull
  simp [c3Run, newBase, newStream, takeStream, World.empty, hsetup, haddAll, hfull, c3W,
    List.map_take, bindE_ok, Bind.bind, Except.bind, Pure.pure, Except.pure]

/-- C3: on `parent.take(n)` with an attached listener and `1 ≤ n < |vs|`
values added to the parent, the listener receives exactly the first `n`
values in order, then its onDone fires exactly once; the take stream cancels
its subscription to the parent (the parent ends with no subscription, and
`Ev.cancelSub 0` occurs in the log before any delivery to the listener), so
no further parent values are ever delivered; the run ends quiescent. -/
theorem take_delivers_first_n_then_closes (n : Nat) (vs : List Nat)
    (h1 : 1 ≤ n) (h2 : n < vs.length) :
    okE (c3Run n vs) = true ∧
    (forceW (c3Run n vs)).log =
      [Ev.hook 0 HookName.onListen, Ev.cancelSub 0, Ev.hook 1 HookName.onListen] ++
        (vs.take n).map (Ev.data 0) ++
        [Ev.done 0, Ev.cancelSub 1, Ev.hook 0 HookName.onCancel,
         Ev.hook 1 HookName.onCancel] ∧
    dataLog (forceW (c3Run n vs)).log 0 = vs.take n ∧
    doneCount (forceW (c3Run n vs)).log 0 = 1 ∧
    (getS (forceW (c3Run n vs)) 0).map (fun s => s.subscription) = some none ∧
    (forceW (c3Run n vs)).queue = [] := by
  rw [c3_eval n vs h1 h2]
  refine ⟨rfl, rfl, ?_, ?_, rfl, rfl⟩
  · have hd := dataLog_map_data (vs.take n) 0
    simp only [dataLog, List.map_take] at hd ⊢
    simp [forceW, c3W, List.filterMap_append, hd]
  · have hc := doneCount_map_data (vs.take n) 0 0
    simp only [doneCount, List.map_take] at hc ⊢
    simp [forceW, c3W, List.countP_append, hc]

theorem take_delivers_first_n_then_closes_witness :
    1 ≤ 3 ∧ 3 < ([0, 1, 2, 3, 4, 5, 6, 7, 8, 9] : List Nat).length ∧
    dataLog (forceW (c3Run 3 [0, 1, 2, 3, 4, 5, 6, 7, 8, 9])).log 0 = [0, 1, 2] ∧
    doneCount (forceW (c3Run 3 [0, 1, 2, 3, 4, 5, 6, 7, 8, 9])).log 0 = 1 :=
  ⟨by decide, by decide,
    ((take_delivers_first_n_then_closes 3 [0, 1, 2, 3, 4, 5, 6, 7, 8, 9]
      (by decide) (by decide)).2.2.1).trans (by decide),
    (take_delivers_first_n_then_closes 3 [0, 1, 2, 3, 4, 5, 6, 7, 8, 9]
      (by decide) (by decide)).2.2.2.1⟩

/-- An external observing subscription on the broadcast stream (stream 1). -/
def c9Sub (lid : Nat) : SubState :=
  { stream := 1, onData := DataCb.obs lid, onDone := some (DoneCb.obsDone lid) }

lemma list_set_self {α : Type} : ∀ (l : List α) (i : Nat) (a : α),
    l[i]? = some a → l.set i a = l := by
  intro l
  induction l with
  | nil => intro i a h; simp at h
  | cons x rest ih =>
    intro i a h
    cases i with
    | zero => simp at h; simp [h]
    | succ i => simp at h; simp [ih i a h]

/-- The C9 world: stream 0 the base parent (empty buffer throughout), stream
1 the broadcast stream. -/
def c9W (sS : Option Nat) (cl : Bool) (ps : Option Nat) (sb : List Nat)
    (SS : List SubState) (q : List Task) (log : List Ev) : World :=
  { streams := [{ tag := Tag.base, subscription := sS },
                { tag := Tag.broadcast, parent := some 0, isClosed := cl, parentSub := ps,
                  subscribers := sb }],
    subs := SS, queue := q, log := log }

/-- The broadcast Done fan-out over observing subscriptions: every listed
subscriber's onDone callback fires, in set order, and nothing else changes. -/
lemma fan_obs (ids : List Nat) : ∀ (SS : List SubState) (lids : Nat → Nat)
    (sS : Option Nat) (cl : Bool) (ps : Option Nat) (sb : List Nat)
    (q : List Task) (log : List Ev),
    (∀ id ∈ ids, SS[id]? = some (c9Sub (lids id))) →
    fanLoop Msg.done (c9W sS cl ps sb SS q log) ids =
      Except.ok (c9W sS cl ps sb SS q (log ++ ids.map (fun id => Ev.done (lids id)))) := by
  induction ids with
  | nil => intro SS lids sS cl ps sb q log _; simp [fanLoop, c9W]
  | cons id rest ih =>
    intro SS lids sS cl ps sb q log hlook
    have hid : SS[id]? = some (c9Sub (lids id)) := hlook id (by simp)
    have hlen : id < SS.length := by
      by_contra hcon
      rw [List.getElem?_eq_none (by omega)] at hid
      cases hid
    have hset : (SS.set id { c9Sub (lids id) with buffer := [Msg.done] })[id]? =
        some { c9Sub (lids id) with buffer := [Msg.done] } := by
      simp [List.getElem?_set_self, hlen]
    have step : subMessageHandler (c9W sS cl ps sb SS q log) id Msg.done =
        Except.ok (c9W sS cl ps sb SS q (log ++ [Ev.done (lids id)])) := by
      simp only [c9W, subMessageHandler, modSub, hid]
      simp only [c9Sub] at hset hid ⊢
      simp [subEmit, subEmitGo, deliverMsg, deliverDone, logE, modSub, hset,
        List.set_set, bindE_ok, Bind.bind, Except.bind, Pure.pure, Except.pure]
      rw [list_set_self SS id _ hid]
    have hrest : ∀ i ∈ rest, SS[i]? = some (c9Sub (lids i)) :=
      fun i hi => hlook i (by simp [hi])
    have ih' := ih SS lids sS cl ps sb q (log ++ [Ev.done (lids id)]) hrest
    simp only [fanLoop, c9W] at step ih' ⊢
    simp [step, ih', bindE_ok, List.append_assoc]

/-- The subscriptions after the attach phase: the parent wiring, the first
listener (lid 10) and `k` further listeners (lids 11..10+k). -/
def c9SS (k : Nat) : List SubState :=
  c3SubP :: c9Sub 10 :: (List.range k).map (fun i => c9Sub (11 + i))

/-- Listener id of each subscriber id in the C9 scenario. -/
def c9lids (k : Nat) : Nat → Nat :=
  fun id => if id = 1 then 10 else if id = k + 3 then 0 else 9 + id

/-- One additional `listen` on a live broadcast stream with its parent
subscription in place: appends the subscription, adds it to the set, fires
onListen. -/
lemma c9_listen_step (lid : Nat) (SS : List SubState) (sb : List Nat)
    (q : List Task) (log : List Ev) :
    streamListen 3 (c9W (some 0) false (some 0) sb SS q log) 1 (DataCb.obs lid) none
        (some (DoneCb.obsDone lid)) false =
      Except.ok (SS.length, c9W (some 0) false (some 0) (sb ++ [SS.length])
        (SS ++ [c9Sub lid]) (q ++ [Task.hookT 1 HookName.onListen]) log) := by
  simp only [c9W, c9Sub]
  simp [streamListen, getS, setS, modS, pushHook, bindE_ok, Bind.bind, Except.bind,
    Pure.pure, Except.pure]

lemma replicate_snoc {α : Type} (a : α) (k : Nat) :
    List.replicate k a ++ [a] = List.replicate (k + 1) a := by
  induction k with
  | zero => rfl
  | succ k ih => simp [List.replicate_succ, List.cons_append, ih]

/-- The attach fold: `k` further listeners join the broadcast stream. -/
lemma c9_attach (k : Nat) : ∀ (SS : List SubState) (sb : List Nat) (q : List Task)
    (log : List Ev),
    (List.range k).foldlM (fun w i => do
        let r ← streamListen 3 w 1 (DataCb.obs (11 + i)) none
                  (some (DoneCb.obsDone (11 + i))) false
        pure r.2)
      (c9W (some 0) false (some 0) sb SS q log) =
    Except.ok (c9W (some 0) false (some 0)
      (sb ++ (List.range k).map (fun i => SS.length + i))
      (SS ++ (List.range k).map (fun i => c9Sub (11 + i)))
      (q ++ List.replicate k (Task.hookT 1 HookName.onListen)) log) := by
  induction k with
  | zero =>
    intro SS sb q log
    simp [List.range_zero, List.foldlM_nil, Pure.pure, Except.pure]
  | succ k ih =>
    intro SS sb q log
    rw [List.range_succ, List.foldlM_append, ih SS sb q log]
    simp only [bindE_ok]
    have hstep := c9_listen_step (11 + k) (SS ++ (List.range k).map (fun i => c9Sub (11 + i)))
      (sb ++ (List.range k).map (fun i => SS.length + i))
      (q ++ List.replicate k (Task.hookT 1 HookName.onListen)) log
    simp only [List.foldlM_cons, List.foldlM_nil, hstep, bindE_ok, Bind.bind, Except.bind,
      Pure.pure, Except.pure]
    simp [List.range_succ, List.append_assoc, List.length_append, List.length_map,
      List.length_range, replicate_snoc]

/-- Deferred onListen hook ticks: each queue step logs one hook event. -/
lemma c9_hooks (k : Nat) : ∀ (sb : List Nat) (SS : List SubState) (q : List Task)
    (log : List Ev),
    runQueue k (c9W none true none sb SS
        (List.replicate k (Task.hookT 1 HookName.onListen) ++ q) log) =
      Except.ok (c9W none true none sb SS q
        (log ++ List.replicate k (Ev.hook 1 HookName.onListen))) := by
  induction k with
  | zero => intro sb SS q log; simp [runQueue, c9W]
  | succ k ih =>
    intro sb SS q log
    have hq : (c9W none true none sb SS
        (List.replicate (k + 1) (Task.hookT 1 HookName.onListen) ++ q) log).queue =
        Task.hookT 1 HookName.onListen ::
          (List.replicate k (Task.hookT 1 HookName.onListen) ++ q) := by
      simp [c9W, List.replicate_succ]
    rw [runQueue_cons k _ _ _ hq]
    have htask : runTask { c9W none true none sb SS
        (List.replicate (k + 1) (Task.hookT 1 HookName.onListen) ++ q) log with
          queue := List.replicate k (Task.hookT 1 HookName.onListen) ++ q }
        (Task.hookT 1 HookName.onListen) =
        Except.ok (c9W none true none sb SS
          (List.replicate k (Task.hookT 1 HookName.onListen) ++ q)
          (log ++ [Ev.hook 1 HookName.onListen])) := by
      simp [c9W, runTask, logE]
    rw [htask]
    simp only [bindE_ok]
    rw [ih sb SS q (log ++ [Ev.hook 1 HookName.onListen])]
    simp [List.append_assoc, List.replicate_succ]

lemma c9SS_length (k : Nat) : (c9SS k).length = k + 2 := by
  simp [c9SS]

/-- Subscriber-id to listener-id lookup for the first Done fan-out. -/
lemma c9_lookup1 (k : Nat) : ∀ id ∈ (1 :: (List.range k).map (fun i => 2 + i)),
    (c9SS k)[id]? = some (c9Sub (c9lids k id)) := by
  intro id hid
  rcases List.mem_cons.1 hid with h1 | hm
  · subst h1
    simp [c9SS, c9lids]
  · rcases List.mem_map.1 hm with ⟨i, hi, rfl⟩
    simp only [List.mem_range] at hi
    have hne1 : 2 + i ≠ 1 := by omega
    have hne2 : 2 + i ≠ k + 3 := by omega
    have hlid : c9lids k (2 + i) = 11 + i := by
      simp [c9lids, hne1, hne2]
      omega
    rw [hlid]
    have hidx : (2 : Nat) + i = (i + 1) + 1 := by omega
    rw [hidx]
    simp [c9SS, List.getElem?_map, List.getElem?_range, hi]

/-- Subscriber-id to listener-id lookup for the second Done fan-out. -/
lemma c9_lookup2 (k : Nat) :
    ∀ id ∈ (1 :: ((List.range k).map (fun i => 2 + i) ++ [k + 3])),
    (c9SS k ++ [c3SubP, c9Sub 0])[id]? = some (c9Sub (c9lids k id)) := by
  intro id hid
  rcases List.mem_cons.1 hid with h1 | hm
  · subst h1
    have : (c9SS k ++ [c3SubP, c9Sub 0])[1]? = (c9SS k)[1]? := by
      rw [List.getElem?_append_left (by rw [c9SS_length]; omega)]
    rw [this]
    simp [c9SS, c9lids]
  · rcases List.mem_append.1 hm with hm1 | hm2
    · rcases List.mem_map.1 hm1 with ⟨i, hi, rfl⟩
      simp only [List.mem_range] at hi
      have : (c9SS k ++ [c3SubP, c9Sub 0])[2 + i]? = (c9SS k)[2 + i]? := by
        rw [List.getElem?_append_left (by rw [c9SS_length]; omega)]
      rw [this]
      exact c9_lookup1 k (2 + i) (by simp [List.mem_range]; omega)
    · simp only [List.mem_singleton] at hm2
      subst hm2
      have hlid : c9lids k (k + 3) = 0 := by
        simp [c9lids]
      rw [hlid]
      rw [List.getElem?_append_right (by rw [c9SS_length]; omega)]
      rw [c9SS_length]
      simp [show k + 3 - (k + 2) = 1 from by omega]

lemma countP_range_single (k j : Nat) (hj : j < k) :
    (List.range k).countP (fun i => decide (i = j)) = 1 := by
  induction k with
  | zero => omega
  | succ k ih =>
    rw [List.range_succ, List.countP_append]
    by_cases hjk : j = k
    · subst hjk
      have : (List.range j).countP (fun i => decide (i = j)) = 0 := by
        apply List.countP_eq_zero.2
        intro a ha
        simp only [List.mem_range] at ha
        simp
        omega
      simp [this]
    · have hj' : j < k := by omega
      rw [ih hj']
      have hkj : ¬(k = j) := fun h => hjk h.symm
      simp [hkj]

/-- The first `listen` on the fresh broadcast stream: wires the parent
subscription (id 0) and attaches the lid-10 observer (id 1). -/
lemma c9_listen1 :
    streamListen 3 (c9W none false none [] [] [] []) 1 (DataCb.obs 10) none
        (some (DoneCb.obsDone 10)) false =
      Except.ok (1, c9W (some 0) false (some 0) [1] [c3SubP, c9Sub 10]
        [Task.hookT 0 HookName.onListen, Task.emitT 0, Task.hookT 1 HookName.onListen]
        []) := by
  simp [streamListen, baseListenCore, c9W, c3SubP, c9Sub, getS, setS, modS, pushHook,
    emitSchedule, streamClose, bindE_ok, Bind.bind, Except.bind, Pure.pure, Except.pure]

/-- `close()` on the live broadcast stream: marks it closed, cancels the
parent subscription (scheduling its onCancel hook) and schedules the Done
fan-out. -/
lemma c9_close (k : Nat) (q : List Task) :
    streamClose (c9W (some 0) false (some 0)
        (1 :: (List.range k).map (fun i => 2 + i)) (c9SS k) q []) 1 =
      c9W none true none (1 :: (List.range k).map (fun i => 2 + i)) (c9SS k)
        (q ++ [Task.hookT 0 HookName.onCancel, Task.fanDoneT 1])
        [Ev.cancelSub 0] := by
  simp [streamClose, subCancel, streamCancel, c9W, c9SS, c3SubP, getS, setS, modS,
    logE, pushHook, baseClose, emitSchedule]

/-- The fan-out order maps subscriber ids to listener ids: first the lid-10
observer, then the k later observers. -/
lemma c9_mapev1 (k : Nat) :
    (1 :: (List.range k).map (fun i => 2 + i)).map (fun id => Ev.done (c9lids k id)) =
      Ev.done 10 :: (List.range k).map (fun i => Ev.done (11 + i)) := by
  simp only [List.map_cons, List.map_map]
  have h1 : c9lids k 1 = 10 := by simp [c9lids]
  rw [h1]
  congr 1
  apply List.map_congr_left
  intro i hi
  simp only [List.mem_range] at hi
  have hne1 : 2 + i ≠ 1 := by omega
  have hne2 : 2 + i ≠ k + 3 := by omega
  simp [Function.comp, c9lids, hne1, hne2]
  omega

/-- First post-close drain: the three pending hooks run, the parent emit is a
no-op, the deferred onListen hooks run, onCancel runs and the Done fan-out
reaches all 1 + k subscribers. -/
lemma c9_drain1 (k : Nat) :
    runQueue (2 * k + 12) (c9W none true none
        (1 :: (List.range k).map (fun i => 2 + i)) (c9SS k)
        ([Task.hookT 0 HookName.onListen, Task.emitT 0, Task.hookT 1 HookName.onListen]
          ++ List.replicate k (Task.hookT 1 HookName.onListen)
          ++ [Task.hookT 0 HookName.onCancel, Task.fanDoneT 1])
        [Ev.cancelSub 0]) =
      Except.ok (c9W none true none
        (1 :: (List.range k).map (fun i => 2 + i)) (c9SS k) []
        ([Ev.cancelSub 0, Ev.hook 0 HookName.onListen, Ev.hook 1 HookName.onListen]
          ++ List.replicate k (Ev.hook 1 HookName.onListen)
          ++ Ev.hook 0 HookName.onCancel ::
              Ev.done 10 :: (List.range k).map (fun i => Ev.done (11 + i)))) := by
  rw [show 2 * k + 12 = (3 + (k + 2)) + (k + 7) from by omega, runQueue_add]
  rw [runQueue_add 3 (k + 2)]
  have h3 : runQueue 3 (c9W none true none
      (1 :: (List.range k).map (fun i => 2 + i)) (c9SS k)
      ([Task.hookT 0 HookName.onListen, Task.emitT 0, Task.hookT 1 HookName.onListen]
        ++ List.replicate k (Task.hookT 1 HookName.onListen)
        ++ [Task.hookT 0 HookName.onCancel, Task.fanDoneT 1])
      [Ev.cancelSub 0]) =
      Except.ok (c9W none true none
        (1 :: (List.range k).map (fun i => 2 + i)) (c9SS k)
        (List.replicate k (Task.hookT 1 HookName.onListen)
          ++ [Task.hookT 0 HookName.onCancel, Task.fanDoneT 1])
        [Ev.cancelSub 0, Ev.hook 0 HookName.onListen, Ev.hook 1 HookName.onListen]) := by
    simp [runQueue, runTask, drainLoop, c9W, getS, setS, modS, logE,
      bindE_ok, Bind.bind, Except.bind, Pure.pure, Except.pure]
  rw [h3, bindE_ok, runQueue_add k 2,
    c9_hooks k (1 :: (List.range k).map (fun i => 2 + i)) (c9SS k)
      [Task.hookT 0 HookName.onCancel, Task.fanDoneT 1]
      [Ev.cancelSub 0, Ev.hook 0 HookName.onListen, Ev.hook 1 HookName.onListen],
    bindE_ok]
  have hfan := fan_obs (1 :: (List.range k).map (fun i => 2 + i)) (c9SS k) (c9lids k)
    none true none (1 :: (List.range k).map (fun i => 2 + i)) []
    (([Ev.cancelSub 0, Ev.hook 0 HookName.onListen, Ev.hook 1 HookName.onListen]
        ++ List.replicate k (Ev.hook 1 HookName.onListen))
      ++ [Ev.hook 0 HookName.onCancel])
    (c9_lookup1 k)
  rw [c9_mapev1 k] at hfan
  have h2 : runQueue 2 (c9W none true none
      (1 :: (List.range k).map (fun i => 2 + i)) (c9SS k)
      [Task.hookT 0 HookName.onCancel, Task.fanDoneT 1]
      ([Ev.cancelSub 0, Ev.hook 0 HookName.onListen, Ev.hook 1 HookName.onListen]
        ++ List.replicate k (Ev.hook 1 HookName.onListen))) =
      Except.ok (c9W none true none
        (1 :: (List.range k).map (fun i => 2 + i)) (c9SS k) []
        ((([Ev.cancelSub 0, Ev.hook 0 HookName.onListen, Ev.hook 1 HookName.onListen]
            ++ List.replicate k (Ev.hook 1 HookName.onListen))
          ++ [Ev.hook 0 HookName.onCancel])
          ++ Ev.done 10 :: (List.range k).map (fun i => Ev.done (11 + i)))) := by
    rw [show (2 : Nat) = 1 + 1 from rfl,
      runQueue_cons 1 _ (Task.hookT 0 HookName.onCancel) [Task.fanDoneT 1] rfl]
    have hstep : runTask { c9W none true none
        (1 :: (List.range k).map (fun i => 2 + i)) (c9SS k)
        [Task.hookT 0 HookName.onCancel, Task.fanDoneT 1]
        ([Ev.cancelSub 0, Ev.hook 0 HookName.onListen, Ev.hook 1 HookName.onListen]
          ++ List.replicate k (Ev.hook 1 HookName.onListen)) with
          queue := [Task.fanDoneT 1] }
        (Task.hookT 0 HookName.onCancel) =
        Except.ok (c9W none true none
          (1 :: (List.range k).map (fun i => 2 + i)) (c9SS k) [Task.fanDoneT 1]
          (([Ev.cancelSub 0, Ev.hook 0 HookName.onListen, Ev.hook 1 HookName.onListen]
            ++ List.replicate k (Ev.hook 1 HookName.onListen))
            ++ [Ev.hook 0 HookName.onCancel])) := by
      simp [runTask, logE, c9W]
    rw [hstep, bindE_ok,
      runQueue_cons 0 _ (Task.fanDoneT 1) [] rfl]
    have hstep2 : runTask { c9W none true none
        (1 :: (List.range k).map (fun i => 2 + i)) (c9SS k) [Task.fanDoneT 1]
        (([Ev.cancelSub 0, Ev.hook 0 HookName.onListen, Ev.hook 1 HookName.onListen]
          ++ List.replicate k (Ev.hook 1 HookName.onListen))
          ++ [Ev.hook 0 HookName.onCancel]) with queue := [] }
        (Task.fanDoneT 1) =
        fanLoop Msg.done (c9W none true none
          (1 :: (List.range k).map (fun i => 2 + i)) (c9SS k) []
          (([Ev.cancelSub 0, Ev.hook 0 HookName.onListen, Ev.hook 1 HookName.onListen]
            ++ List.replicate k (Ev.hook 1 HookName.onListen))
            ++ [Ev.hook 0 HookName.onCancel]))
          (1 :: (List.range k).map (fun i => 2 + i)) := by
      simp [runTask, c9W, getS]
    rw [hstep2, hfan, bindE_ok]
    rfl
  rw [h2, bindE_ok]
  rw [runQueue_empty (k + 7) _ rfl]
  simp [List.append_assoc]

/-- A `listen` on the now-closed broadcast stream: re-wires the parent
subscription (id k+2), attaches the lid-0 observer (id k+3) and — because the
stream is closed — re-runs `close()`, cancelling the fresh parent subscription
and scheduling another Done fan-out. -/
lemma c9_listen2 (k : Nat) (log : List Ev) :
    streamListen 3 (c9W none true none
        (1 :: (List.range k).map (fun i => 2 + i)) (c9SS k) [] log) 1
        (DataCb.obs 0) none (some (DoneCb.obsDone 0)) false =
      Except.ok (k + 3, c9W none true none
        (1 :: ((List.range k).map (fun i => 2 + i) ++ [k + 3]))
        (c9SS k ++ [c3SubP, c9Sub 0])
        [Task.hookT 0 HookName.onListen, Task.emitT 0, Task.hookT 1 HookName.onListen,
         Task.hookT 0 HookName.onCancel, Task.fanDoneT 1]
        (log ++ [Ev.cancelSub (k + 2)])) := by
  have hl : (c9SS k ++ [c3SubP, c9Sub 0])[k + 2]? = some c3SubP := by
    rw [List.getElem?_append_right (by rw [c9SS_length]), c9SS_length]
    simp [show k + 2 - (k + 2) = 0 from by omega]
  have hl2 : ∀ h : k + 2 < (c9SS k ++ [c3SubP, c9Sub 0]).length,
      (c9SS k ++ [c3SubP, c9Sub 0])[k + 2] = c3SubP := by
    intro h
    have := hl
    rw [List.getElem?_eq_getElem h] at this
    exact Option.some.inj this
  have hlen : (c9SS k ++ [c3SubP, c9Sub 0]).length = k + 2 + 2 := by
    simp [c9SS_length]
  have harith : k + 2 < k + 2 + 2 := by omega
  simp only [c3SubP, c9Sub] at hl2
  simp [streamListen, baseListenCore, streamClose, subCancel, streamCancel, baseClose,
    emitSchedule, c9W, c3SubP, c9Sub, getS, setS, modS, pushHook, logE,
    c9SS_length, hl, hlen, harith, bindE_ok, Bind.bind, Except.bind, Pure.pure,
    Except.pure]
  rw [hl2]
  · simp [getS, setS, modS, pushHook, logE, streamCancel, baseClose, emitSchedule,
      c3SubP, c9Sub, c9SS_length, List.append_assoc]
  · simp [c9SS_length]

/-- The second fan-out order: the 1 + k original observers again, then the
new lid-0 observer. -/
lemma c9_mapev2 (k : Nat) :
    (1 :: ((List.range k).map (fun i => 2 + i) ++ [k + 3])).map
        (fun id => Ev.done (c9lids k id)) =
      (Ev.done 10 :: (List.range k).map (fun i => Ev.done (11 + i))) ++ [Ev.done 0] := by
  simp only [List.map_cons, List.map_append, List.map_map, List.map_cons, List.map_nil]
  have h1 : c9lids k 1 = 10 := by simp [c9lids]
  have h2 : c9lids k (k + 3) = 0 := by simp [c9lids]
  rw [h1, h2]
  simp only [List.cons_append, List.nil_append]
  congr 1
  congr 1
  apply List.map_congr_left
  intro i hi
  simp only [List.mem_range] at hi
  have hne1 : 2 + i ≠ 1 := by omega
  have hne2 : 2 + i ≠ k + 3 := by omega
  simp [Function.comp, c9lids, hne1, hne2]
  omega

/-- Second post-close drain: hooks and the no-op parent emit run, then the
second Done fan-out reaches the 1 + k original observers and the new one. -/
lemma c9_drain2 (k : Nat) (log : List Ev) :
    runQueue (2 * k + 12) (c9W none true none
        (1 :: ((List.range k).map (fun i => 2 + i) ++ [k + 3]))
        (c9SS k ++ [c3SubP, c9Sub 0])
        [Task.hookT 0 HookName.onListen, Task.emitT 0, Task.hookT 1 HookName.onListen,
         Task.hookT 0 HookName.onCancel, Task.fanDoneT 1] log) =
      Except.ok (c9W none true none
        (1 :: ((List.range k).map (fun i => 2 + i) ++ [k + 3]))
        (c9SS k ++ [c3SubP, c9Sub 0]) []
        (log ++ [Ev.hook 0 HookName.onListen, Ev.hook 1 HookName.onListen,
                 Ev.hook 0 HookName.onCancel]
           ++ ((Ev.done 10 :: (List.range k).map (fun i => Ev.done (11 + i)))
                ++ [Ev.done 0]))) := by
  rw [show 2 * k + 12 = (4 + 1) + (2 * k + 7) from by omega, runQueue_add, runQueue_add 4 1]
  have h4 : runQueue 4 (c9W none true none
      (1 :: ((List.range k).map (fun i => 2 + i) ++ [k + 3]))
      (c9SS k ++ [c3SubP, c9Sub 0])
      [Task.hookT 0 HookName.onListen, Task.emitT 0, Task.hookT 1 HookName.onListen,
       Task.hookT 0 HookName.onCancel, Task.fanDoneT 1] log) =
      Except.ok (c9W none true none
        (1 :: ((List.range k).map (fun i => 2 + i) ++ [k + 3]))
        (c9SS k ++ [c3SubP, c9Sub 0]) [Task.fanDoneT 1]
        (log ++ [Ev.hook 0 HookName.onListen, Ev.hook 1 HookName.onListen,
                 Ev.hook 0 HookName.onCancel])) := by
    simp [runQueue, runTask, drainLoop, c9W, getS, setS, modS, logE,
      bindE_ok, Bind.bind, Except.bind, Pure.pure, Except.pure]
  rw [h4, bindE_ok, runQueue_cons 0 _ (Task.fanDoneT 1) [] rfl]
  have hfan := fan_obs (1 :: ((List.range k).map (fun i => 2 + i) ++ [k + 3]))
    (c9SS k ++ [c3SubP, c9Sub 0]) (c9lids k)
    none true none (1 :: ((List.range k).map (fun i => 2 + i) ++ [k + 3])) []
    (log ++ [Ev.hook 0 HookName.onListen, Ev.hook 1 HookName.onListen,
             Ev.hook 0 HookName.onCancel])
    (c9_lookup2 k)
  rw [c9_mapev2 k] at hfan
  have hstep2 : runTask { c9W none true none
      (1 :: ((List.range k).map (fun i => 2 + i) ++ [k + 3]))
      (c9SS k ++ [c3SubP, c9Sub 0]) [Task.fanDoneT 1]
      (log ++ [Ev.hook 0 HookName.onListen, Ev.hook 1 HookName.onListen,
               Ev.hook 0 HookName.onCancel]) with queue := [] }
      (Task.fanDoneT 1) =
      fanLoop Msg.done (c9W none true none
        (1 :: ((List.range k).map (fun i => 2 + i) ++ [k + 3]))
        (c9SS k ++ [c3SubP, c9Sub 0]) []
        (log ++ [Ev.hook 0 HookName.onListen, Ev.hook 1 HookName.onListen,
                 Ev.hook 0 HookName.onCancel]))
        (1 :: ((List.range k).map (fun i => 2 + i) ++ [k + 3])) := by
    simp [runTask, c9W, getS]
  rw [hstep2, hfan, bindE_ok]
  rw [runQueue_empty 0 _ rfl, bindE_ok, runQueue_empty (2 * k + 7) _ rfl]

/-- The events of the C9 run: one Done per original observer on the first
fan-out, then — after the second listen — one more Done per original observer
and one for the new observer. -/
def c9log (k : Nat) : List Ev :=
  [Ev.cancelSub 0, Ev.hook 0 HookName.onListen, Ev.hook 1 HookName.onListen] ++
  List.replicate k (Ev.hook 1 HookName.onListen) ++
  (Ev.hook 0 HookName.onCancel ::
    Ev.done 10 :: (List.range k).map (fun i => Ev.done (11 + i))) ++
  [Ev.cancelSub (k + 2), Ev.hook 0 HookName.onListen, Ev.hook 1 HookName.onListen,
   Ev.hook 0 HookName.onCancel] ++
  ((Ev.done 10 :: (List.range k).map (fun i => Ev.done (11 + i))) ++ [Ev.done 0])

/-- Full evaluation of the C9 run. -/
lemma c9_eval (k : Nat) :
    c9Run k = Except.ok (c9W none true none
      (1 :: ((List.range k).map (fun i => 2 + i) ++ [k + 3]))
      (c9SS k ++ [c3SubP, c9Sub 0]) [] (c9log k)) := by
  have hstart : c9Run k = (do
      let r0 ← streamListen 3 (c9W none false none [] [] [] []) 1 (DataCb.obs 10) none
                 (some (DoneCb.obsDone 10)) false
      let w ← (List.range k).foldlM (fun w i => do
          let r ← streamListen 3 w 1 (DataCb.obs (11 + i)) none
                    (some (DoneCb.obsDone (11 + i))) false
          pure r.2) r0.2
      let w := streamClose w 1
      let w ← runQueue (2 * k + 12) w
      let r ← streamListen 3 w 1 (DataCb.obs 0) none (some (DoneCb.obsDone 0)) false
      runQueue (2 * k + 12) r.2) := by
    simp [c9Run, newBase, asBroadcastStream, newStream, World.empty, c9W]
  rw [hstart, c9_listen1, bindE_ok]
  rw [c9_attach k [c3SubP, c9Sub 10] [1]
    [Task.hookT 0 HookName.onListen, Task.emitT 0, Task.hookT 1 HookName.onListen] [],
    bindE_ok]
  have hfold : c9W (some 0) false (some 0)
      ([1] ++ (List.range k).map (fun i => [c3SubP, c9Sub 10].length + i))
      ([c3SubP, c9Sub 10] ++ (List.range k).map (fun i => c9Sub (11 + i)))
      ([Task.hookT 0 HookName.onListen, Task.emitT 0, Task.hookT 1 HookName.onListen]
        ++ List.replicate k (Task.hookT 1 HookName.onListen)) [] =
      c9W (some 0) false (some 0) (1 :: (List.range k).map (fun i => 2 + i)) (c9SS k)
        ([Task.hookT 0 HookName.onListen, Task.emitT 0, Task.hookT 1 HookName.onListen]
          ++ List.replicate k (Task.hookT 1 HookName.onListen)) [] := by
    simp [c9SS]
  rw [hfold, c9_close k]
  dsimp only
  rw [c9_drain1 k, bindE_ok, c9_listen2 k, bindE_ok, c9_drain2 k]
  simp [c9log, List.append_assoc]

lemma doneCount_nil (lid : Nat) : doneCount [] lid = 0 := rfl

lemma doneCount_append (a b : List Ev) (lid : Nat) :
    doneCount (a ++ b) lid = doneCount a lid + doneCount b lid := by
  simp [doneCount, List.countP_append]

lemma doneCount_cons (e : Ev) (rest : List Ev) (lid : Nat) :
    doneCount (e :: rest) lid =
      doneCount rest lid +
        (match e with | Ev.done l => if l = lid then 1 else 0 | _ => 0) := by
  cases e <;> simp [doneCount, List.countP_cons]

lemma doneCount_replicate_hook (k sid lid : Nat) (h : HookName) :
    doneCount (List.replicate k (Ev.hook sid h)) lid = 0 := by
  simp only [doneCount]
  exact List.countP_eq_zero.2 (fun b hb => by rw [List.eq_of_mem_replicate hb]; simp)

lemma doneCount_fanmap (k lid : Nat) :
    doneCount ((List.range k).map (fun i => Ev.done (11 + i))) lid =
      (List.range k).countP (fun i => decide (11 + i = lid)) := by
  induction k with
  | zero => rfl
  | succ k ih =>
    rw [List.range_succ, List.map_append, doneCount_append, ih, List.countP_append]
    simp [doneCount, List.countP_cons]

lemma countP_range_zero_of (p : Nat → Bool) (k : Nat) (h : ∀ i, i < k → p i = false) :
    (List.range k).countP p = 0 :=
  List.countP_eq_zero.2 (fun b hb => by simp [h b (List.mem_range.1 hb)])

lemma countP_range_shift (k i : Nat) (h : i < k) :
    (List.range k).countP (fun j => decide (11 + j = 11 + i)) = 1 := by
  have hfun : (fun j => decide (11 + j = 11 + i)) = (fun j => decide (j = i)) :=
    funext (fun j => by by_cases hj : j = i <;> simp [hj])
  rw [hfun]
  exact countP_range_single k i h

lemma c9_count10 (k : Nat) : doneCount (c9log k) 10 = 2 := by
  have hz : (List.range k).countP (fun i => decide (11 + i = 10)) = 0 :=
    countP_range_zero_of _ k (fun i _ => by simp; omega)
  simp [c9log, doneCount_append, doneCount_cons, doneCount_nil, doneCount_replicate_hook,
    doneCount_fanmap, hz]

lemma c9_count_hi (k i : Nat) (h : i < k) : doneCount (c9log k) (11 + i) = 2 := by
  have h10 : ¬(10 = 11 + i) := by omega
  have h0 : ¬(0 = 11 + i) := by omega
  simp [c9log, doneCount_append, doneCount_cons, doneCount_nil, doneCount_replicate_hook,
    doneCount_fanmap, countP_range_shift k i h, countP_range_single k i h, h10, h0]

lemma c9_count0 (k : Nat) : doneCount (c9log k) 0 = 1 := by
  have hz : (List.range k).countP (fun i => decide (11 + i = 0)) = 0 :=
    countP_range_zero_of _ k (fun i _ => by simp)
  simp [c9log, doneCount_append, doneCount_cons, doneCount_nil, doneCount_replicate_hook,
    doneCount_fanmap, hz]

/-- C9: for every broadcast stream that is already closed, a subsequent
`listen` call re-runs `close()`, which fans a Done message to every
Subscription currently in the subscriber set — so every previously attached
subscriber whose onDone already fired receives an additional Done (onDone
fires again for them), not only the newly added listener.  In the C9 scenario
with 1 + k prior listeners each of their onDone callbacks fires twice, the
late listener's fires once, and the run ends quiescent without throwing. -/
theorem closed_broadcast_listen_refans_done (k : Nat) :
    okE (c9Run k) = true ∧
    doneCount (forceW (c9Run k)).log 10 = 2 ∧
    (∀ i, i < k → doneCount (forceW (c9Run k)).log (11 + i) = 2) ∧
    doneCount (forceW (c9Run k)).log 0 = 1 ∧
    (forceW (c9Run k)).queue = [] := by
  rw [c9_eval k]
  refine ⟨rfl, ?_, ?_, ?_, rfl⟩
  · exact c9_count10 k
  · exact fun i hi => c9_count_hi k i hi
  · exact c9_count0 k

/-- Witness: at k = 2 the run is quiescent, the first listener (lid 10) and
the third (lid 12 = 11 + 1, with 1 < 2) each saw two Dones, and the late
listener (lid 0) exactly one. -/
theorem closed_broadcast_listen_refans_done_witness :
    okE (c9Run 2) = true ∧
    doneCount (forceW (c9Run 2)).log 10 = 2 ∧
    doneCount (forceW (c9Run 2)).log 12 = 2 ∧
    doneCount (forceW (c9Run 2)).log 0 = 1 :=
  ⟨(closed_broadcast_listen_refans_done 2).1,
   (closed_broadcast_listen_refans_done 2).2.1,
   (closed_broadcast_listen_refans_done 2).2.2.1 1 (by decide),
   (closed_broadcast_listen_refans_done 2).2.2.2.1⟩
